import Mathlib

/-!
# ProtoFlow serial protocol: CRC engine, frame encoder, byte-wise decoder

Shallow embedding of `serial_protocol.c` / `serial_protocol.h`.

* `uint8_t` / `uint16_t` values are natural numbers; every assignment to a
  16-bit object is followed by `% 65536`, as the C conversion does.
* `ParseContext` is the C struct of the same name; the payload buffer is a
  list of `MAX_DATA_LENGTH` bytes written with `List.set`.
* `parse_byte` returns `none` exactly when the store `ctx.data[ctx.data_index]`
  falls outside the buffer (undefined behaviour in C); otherwise the new
  context and the `user_package_handler` calls made by this call.
* `pack_data_transmit` returns `none` when a write would leave its static
  working buffer, otherwise the `user_uart_transmit` calls and the return value.
* The preprocessor switch `USE_CRC16` is a boolean argument `useCrc`; the
  shipped header sets it to `1` (`USE_CRC16`).
-/

namespace ProtoFlow

/-! ## Configuration (`serial_protocol.h`) -/

/-- Frame header, `#define FRAME_HEADER 0xAA55`. -/
def FRAME_HEADER : Nat := 0xAA55

/-- Frame trailer, `#define FRAME_END 0x55AA`. -/
def FRAME_END : Nat := 0x55AA

/-- Maximum payload length, `#define MAX_DATA_LENGTH 256`. -/
def MAX_DATA_LENGTH : Nat := 256

/-- CRC switch of the shipped header, `#define USE_CRC16 1`. -/
def USE_CRC16 : Bool := true

/-! ## CRC engine (`crc16`, lines 39-51) -/

/-- Body of the inner `for` loop of `crc16`:
`if (crc & 0x8000) crc = (crc << 1) ^ 0x1021; else crc <<= 1;` on a `uint16_t`. -/
def crc16_bit (crc : Nat) : Nat :=
  if crc &&& 0x8000 ≠ 0 then ((crc <<< 1) ^^^ 0x1021) % 65536 else (crc <<< 1) % 65536

/-- The loop `for (int i = 0; i < 8; i++)` of `crc16`; the first argument is
the number of iterations still to run. -/
def crc16_bits : Nat → Nat → Nat
  | 0, crc => crc
  | k + 1, crc => crc16_bits k (crc16_bit crc)

/-- The loop `while (len--)` of `crc16`, running over the `len` bytes at `data`
with the current accumulator. -/
def crc16_loop : Nat → List Nat → Nat
  | crc, [] => crc
  | crc, b :: rest => crc16_loop (crc16_bits 8 ((crc ^^^ (b <<< 8)) % 65536)) rest

/-- The function `static uint16_t crc16(uint8_t *data, uint16_t len)`, with `data` the
`len` bytes at the pointer: the accumulator starts at `0xFFFF`. -/
def crc16 (data : List Nat) : Nat := crc16_loop 0xFFFF data

/-! ## Decoder context -/

/-- The enumeration `typedef enum { ... } ParseState`. -/
inductive ParseState
  | STATE_WAIT_HEADER1
  | STATE_WAIT_HEADER2
  | STATE_WAIT_LENGTH
  | STATE_WAIT_LENGTH_LOW
  | STATE_WAIT_CMD
  | STATE_READ_DATA
  | STATE_WAIT_CRC1
  | STATE_WAIT_CRC2
  | STATE_WAIT_END1
  | STATE_WAIT_END2
  deriving DecidableEq, Repr

open ParseState

/-- Integer value of an enumerator (C numbers them from 0 in declaration order). -/
def ParseState.ord : ParseState → Nat
  | STATE_WAIT_HEADER1 => 0
  | STATE_WAIT_HEADER2 => 1
  | STATE_WAIT_LENGTH => 2
  | STATE_WAIT_LENGTH_LOW => 3
  | STATE_WAIT_CMD => 4
  | STATE_READ_DATA => 5
  | STATE_WAIT_CRC1 => 6
  | STATE_WAIT_CRC2 => 7
  | STATE_WAIT_END1 => 8
  | STATE_WAIT_END2 => 9

/-- The structure `typedef struct { ... } ParseContext`. -/
structure ParseContext where
  state : ParseState
  data_index : Nat
  pkg_length : Nat
  cmd : Nat
  data : List Nat
  calc_crc : Nat
  recv_crc : Nat
  deriving DecidableEq, Repr

/-- One invocation `user_package_handler(cmd, data, len)`: `data` holds the
`len` bytes the handler may read through the pointer it is given. -/
structure HandlerCall where
  cmd : Nat
  data : List Nat
  len : Nat
  deriving DecidableEq, Repr

/-- The function `serial_protocol_init`: `memset(&ctx, 0, sizeof(ctx))` and
`ctx.state = STATE_WAIT_HEADER1`. -/
def serial_protocol_init : ParseContext :=
  { state := STATE_WAIT_HEADER1, data_index := 0, pkg_length := 0, cmd := 0,
    data := List.replicate MAX_DATA_LENGTH 0, calc_crc := 0, recv_crc := 0 }

/-! ## Decoder (`parse_byte`, lines 97-193) -/

/-- Body of the `for` loop in the running CRC update of `parse_byte`
(lines 186-189), on `ctx.calc_crc`. -/
def calc_crc_bit (c : Nat) : Nat :=
  if c &&& 0x8000 ≠ 0 then ((c <<< 1) ^^^ 0x1021) % 65536 else (c <<< 1) % 65536

/-- The running CRC update of `parse_byte` (lines 184-190):
`ctx.calc_crc ^= (uint16_t)byte << 8;` followed by the eight loop iterations,
written out. -/
def calc_crc_update (c byte : Nat) : Nat :=
  let c0 := (c ^^^ (byte <<< 8)) % 65536
  calc_crc_bit (calc_crc_bit (calc_crc_bit (calc_crc_bit
    (calc_crc_bit (calc_crc_bit (calc_crc_bit (calc_crc_bit c0)))))))

/-- The `switch` of `parse_byte` (lines 100-179). The result is `none` for an
out-of-range buffer store; otherwise the updated context, the handler calls made,
and whether control left through `break` (`true`) or through `return` (`false`).
The `default:` branch has no counterpart: `ctx.state` only ever holds one of the ten
enumerators. -/
def parse_switch (useCrc : Bool) (ctx : ParseContext) (byte : Nat) :
    Option (ParseContext × List HandlerCall × Bool) :=
  match ctx.state with
  | STATE_WAIT_HEADER1 =>
    if byte = (FRAME_HEADER >>> 8) &&& 0xFF then
      some ({ ctx with state := STATE_WAIT_HEADER2 }, [], true)
    else some (ctx, [], true)
  | STATE_WAIT_HEADER2 =>
    if byte = FRAME_HEADER &&& 0xFF then
      some ({ ctx with state := STATE_WAIT_LENGTH, calc_crc := 0xFFFF }, [], true)
    else some ({ ctx with state := STATE_WAIT_HEADER1 }, [], true)
  | STATE_WAIT_LENGTH =>
    some ({ ctx with pkg_length := (byte <<< 8) % 65536,
                     state := STATE_WAIT_LENGTH_LOW }, [], true)
  | STATE_WAIT_LENGTH_LOW =>
    let len := (ctx.pkg_length ||| byte) % 65536
    if len > MAX_DATA_LENGTH + 3 then
      some ({ ctx with pkg_length := len, state := STATE_WAIT_HEADER1 }, [], false)
    else some ({ ctx with pkg_length := len, state := STATE_WAIT_CMD }, [], true)
  | STATE_WAIT_CMD =>
    some ({ ctx with cmd := byte, data_index := 0, state := STATE_READ_DATA }, [], true)
  | STATE_READ_DATA =>
    if ctx.data_index < MAX_DATA_LENGTH then
      let ctx1 := { ctx with data := ctx.data.set ctx.data_index byte,
                             data_index := (ctx.data_index + 1) % 65536 }
      if (ctx1.data_index : Int) ≥ (ctx1.pkg_length : Int) - 1 then
        some ({ ctx1 with state := STATE_WAIT_CRC1 }, [], true)
      else some (ctx1, [], true)
    else none
  | STATE_WAIT_CRC1 =>
    some ({ ctx with recv_crc := (byte <<< 8) % 65536, state := STATE_WAIT_CRC2 }, [], true)
  | STATE_WAIT_CRC2 =>
    let ctx1 := { ctx with recv_crc := (ctx.recv_crc ||| byte) % 65536 }
    if useCrc && ctx1.calc_crc ≠ ctx1.recv_crc then
      some ({ ctx1 with state := STATE_WAIT_HEADER1 }, [], false)
    else some ({ ctx1 with state := STATE_WAIT_END1 }, [], true)
  | STATE_WAIT_END1 =>
    if byte = (FRAME_END >>> 8) &&& 0xFF then
      some ({ ctx with state := STATE_WAIT_END2 }, [], true)
    else some ({ ctx with state := STATE_WAIT_HEADER1 }, [], true)
  | STATE_WAIT_END2 =>
    if byte = FRAME_END &&& 0xFF then
      some ({ ctx with state := STATE_WAIT_HEADER1 },
            [{ cmd := ctx.cmd, data := ctx.data.take ctx.data_index,
               len := ctx.data_index }], true)
    else some ({ ctx with state := STATE_WAIT_HEADER1 }, [], true)

/-- The function `void parse_byte(uint8_t byte)`: the `switch`, then (under `USE_CRC16`, and
only when the `switch` was left through `break`) the running CRC update for a
resulting state in the range `STATE_WAIT_LENGTH .. STATE_WAIT_CRC2`. -/
def parse_byte (useCrc : Bool) (ctx : ParseContext) (byte : Nat) :
    Option (ParseContext × List HandlerCall) :=
  match parse_switch useCrc ctx byte with
  | none => none
  | some (ctx1, calls, viaBreak) =>
    if useCrc && viaBreak && decide (ctx1.state.ord ≥ STATE_WAIT_LENGTH.ord)
        && decide (ctx1.state.ord ≤ STATE_WAIT_CRC2.ord) then
      some ({ ctx1 with calc_crc := calc_crc_update ctx1.calc_crc byte }, calls)
    else some (ctx1, calls)

/-- Feeding a byte stream: one `parse_byte` call per byte, in order, collecting
the handler calls; `none` as soon as one call faults. -/
def feed (useCrc : Bool) : ParseContext → List Nat → Option (ParseContext × List HandlerCall)
  | ctx, [] => some (ctx, [])
  | ctx, b :: rest =>
    match parse_byte useCrc ctx b with
    | none => none
    | some (ctx1, calls) =>
      match feed useCrc ctx1 rest with
      | none => none
      | some (ctx2, more) => some (ctx2, calls ++ more)

/-- Handler calls produced by feeding `bytes` to a freshly initialised decoder
built with `USE_CRC16 = 1`. -/
def decode (bytes : List Nat) : Option (List HandlerCall) :=
  (feed USE_CRC16 serial_protocol_init bytes).map Prod.snd

/-- Decoder state after feeding `bytes` to a freshly initialised decoder built
with `USE_CRC16 = 1`. -/
def stateAfter (bytes : List Nat) : Option ParseState :=
  (feed USE_CRC16 serial_protocol_init bytes).map (fun r => r.1.state)

/-! ## Encoder (`pack_data_transmit`, lines 58-95) -/

/-- Capacity of `static uint8_t buffer[MAX_DATA_LENGTH + 9]`. -/
def BUFFER_SIZE : Nat := MAX_DATA_LENGTH + 9

/-- The store `buffer[index++] = b`. The list is the written prefix
`buffer[0 .. index)`, so `index` is its length; `none` when `index` is outside
the buffer. -/
def put (buf : List Nat) (b : Nat) : Option (List Nat) :=
  if buf.length < BUFFER_SIZE then some (buf ++ [b]) else none

/-- The guarded copy `if (data && len > 0) { memcpy(&buffer[index], data, len); index += len; }`. -/
def put_data (buf : List Nat) (data : List Nat) : Option (List Nat) :=
  if data.length > 0 then
    if buf.length + data.length ≤ BUFFER_SIZE then some (buf ++ data) else none
  else some buf

/-- Outcome of one `pack_data_transmit` call: the byte sequences handed to
`user_uart_transmit`, one per call, and the returned `index`. -/
structure TxResult where
  sent : List (List Nat)
  ret : Nat
  deriving DecidableEq, Repr

/-- The function `uint16_t pack_data_transmit(uint8_t cmd, uint8_t *data, uint16_t len)`,
with `data` the `len` bytes at the (non-null) pointer. -/
def pack_data_transmit (useCrc : Bool) (cmd : Nat) (data : List Nat) : Option TxResult := do
  let b ← put [] ((FRAME_HEADER >>> 8) &&& 0xFF)
  let b ← put b (FRAME_HEADER &&& 0xFF)
  let total_len := (data.length + 1) % 65536
  let b ← put b ((total_len >>> 8) &&& 0xFF)
  let b ← put b (total_len &&& 0xFF)
  let b ← put b cmd
  let b ← put_data b data
  let b ← if useCrc then do
      let crc := crc16 ((b.drop 2).take (b.length - 2))
      let b ← put b ((crc >>> 8) &&& 0xFF)
      put b (crc &&& 0xFF)
    else some b
  let b ← put b ((FRAME_END >>> 8) &&& 0xFF)
  let b ← put b (FRAME_END &&& 0xFF)
  some { sent := [b], ret := b.length % 65536 }

/-- Two-byte big-endian rendering of a 16-bit value. -/
def BE16 (v : Nat) : List Nat := [(v >>> 8) &&& 0xFF, v &&& 0xFF]

/-- The bytes a `pack_data_transmit` call hands to the transmit function
(`USE_CRC16 = 1`), concatenated over its transmit calls; empty if the call faults. -/
def transmitted (cmd : Nat) (data : List Nat) : List Nat :=
  match pack_data_transmit USE_CRC16 cmd data with
  | none => []
  | some r => r.sent.flatten

/-! ## Reference definition of the checksum -/

/-- Reference definition following the spec's words (polynomial `0x1021`,
MSB-first): one shift of the 16-bit register for one message bit. The feedback
is the register's top bit xor the message bit; the register moves one place to
the left, and the polynomial is xor-ed in when the feedback is set. -/
def ccitt_shift (reg : Nat) (bit : Bool) : Nat :=
  let feedback := reg.testBit 15 != bit
  let shifted := (2 * reg) % 65536
  if feedback then shifted ^^^ 0x1021 else shifted

/-- Reference definition following the spec's words (MSB-first, no reflection):
the bits of one message byte, most significant first. -/
def msb_first_bits (byte : Nat) : List Bool :=
  [byte.testBit 7, byte.testBit 6, byte.testBit 5, byte.testBit 4,
   byte.testBit 3, byte.testBit 2, byte.testBit 1, byte.testBit 0]

/-- Reference definition following the spec's words (CRC-16/CCITT-FALSE):
register initialised to `0xFFFF`, message bits shifted in MSB-first, the
register returned as it stands (no final xor, no reflection). -/
def crc16_ccitt_false (msg : List Nat) : Nat :=
  (msg.flatMap msb_first_bits).foldl ccitt_shift 0xFFFF

/-! ## Auxiliary definitions used in the statements -/

/-- Bytes stored by consecutive `ctx.data[ctx.data_index++] = byte` statements. -/
def storeAt : List Nat → Nat → List Nat → List Nat
  | buf, _, [] => buf
  | buf, i, b :: rest => storeAt (buf.set i b) (i + 1) rest

/-- The byte sequence with bit `k` of the byte at index `i` inverted. -/
def flipBit : List Nat → Nat → Nat → List Nat
  | [], _, _ => []
  | b :: rest, 0, k => (b ^^^ (1 <<< k)) :: rest
  | b :: rest, i + 1, k => b :: flipBit rest i k

/-- Two contexts agree on every field the decoder can still read from the state they are in. -/
def agree (c1 c2 : ParseContext) : Prop :=
  c1.state = c2.state ∧ c1.data.length = MAX_DATA_LENGTH ∧ c2.data.length = MAX_DATA_LENGTH
  ∧ (2 ≤ c1.state.ord → c1.state.ord ≤ 7 → c1.calc_crc = c2.calc_crc)
  ∧ (3 ≤ c1.state.ord → c1.state.ord ≤ 5 → c1.pkg_length = c2.pkg_length)
  ∧ (5 ≤ c1.state.ord → c1.cmd = c2.cmd ∧ c1.data_index = c2.data_index
        ∧ c1.data.take c1.data_index = c2.data.take c2.data_index)
  ∧ (c1.state.ord = 7 → c1.recv_crc = c2.recv_crc)

/-- Two results of a decoding run agree: both fault, or both return the same handler calls
and contexts that agree. -/
def agreeRes : Option (ParseContext × List HandlerCall) →
    Option (ParseContext × List HandlerCall) → Prop
  | none, none => True
  | some r1, some r2 => r1.2 = r2.2 ∧ agree r1.1 r2.1
  | _, _ => False

/-- Handler calls made by the `parse_byte` call for the byte `x`, after the bytes `pre` have
been fed to a freshly initialised decoder built with `USE_CRC16 = 1`; `none` if a call
faults. -/
def callsOn (pre : List Nat) (x : Nat) : Option (List HandlerCall) :=
  match feed USE_CRC16 serial_protocol_init pre with
  | none => none
  | some (ctx, _) => (parse_byte USE_CRC16 ctx x).map Prod.snd

/-! ## The checksum: bit-level lemmas -/

theorem xor_mod_65536 (a b : Nat) : (a ^^^ b) % 65536 = (a % 65536) ^^^ (b % 65536) := by
  apply Nat.eq_of_testBit_eq
  intro i
  have h : (65536 : Nat) = 2 ^ 16 := by norm_num
  simp only [h, Nat.testBit_mod_two_pow, Nat.testBit_xor]
  by_cases hi : i < 16 <;> simp [hi]

theorem and_8000_eq (c : Nat) : c &&& 0x8000 = if c.testBit 15 then 0x8000 else 0 := by
  have h : (0x8000 : Nat) = 2 ^ 15 := by norm_num
  apply Nat.eq_of_testBit_eq
  intro i
  rw [Nat.testBit_and, h, Nat.testBit_two_pow]
  by_cases hi : 15 = i
  · subst hi
    cases hc : c.testBit 15 <;> simp
    decide
  · cases hc : c.testBit 15 <;> simp [hi, Nat.testBit_two_pow_of_ne hi]

theorem and_8000_ne_zero_iff (c : Nat) : (c &&& 0x8000 ≠ 0) ↔ c.testBit 15 = true := by
  rw [and_8000_eq]
  cases c.testBit 15 <;> simp

theorem calc_crc_bit_eq (c : Nat) :
    calc_crc_bit c = if c.testBit 15 then ((2 * c) % 65536) ^^^ 0x1021 else (2 * c) % 65536 := by
  unfold calc_crc_bit
  have hs : c <<< 1 = 2 * c := by rw [Nat.shiftLeft_eq]; omega
  by_cases hb : c.testBit 15 = true
  · rw [if_pos ((and_8000_ne_zero_iff c).2 hb), if_pos hb, hs, xor_mod_65536]
  · rw [if_neg (fun h => hb ((and_8000_ne_zero_iff c).1 h)), if_neg hb, hs]

theorem ccitt_shift_lt (r : Nat) (b : Bool) : ccitt_shift r b < 65536 := by
  unfold ccitt_shift
  have h1 : (2 * r) % 65536 < 2 ^ 16 := by omega
  have h2 : (0x1021 : Nat) < 2 ^ 16 := by norm_num
  have := @Nat.xor_lt_two_pow _ _ 16 h1 h2
  simp only
  split <;> omega

theorem two_mul_xor (a b : Nat) : 2 * (a ^^^ b) = (2 * a) ^^^ (2 * b) := by
  have h : ∀ x : Nat, 2 * x = x <<< 1 := by intro x; rw [Nat.shiftLeft_eq]; omega
  rw [h, h, h]
  apply Nat.eq_of_testBit_eq
  intro i
  simp only [Nat.testBit_shiftLeft, Nat.testBit_xor]
  cases decide (i ≥ 1) <;> simp

theorem calc_crc_bit_xor (r u : Nat) :
    calc_crc_bit (r ^^^ u) = ccitt_shift r (u.testBit 15) ^^^ ((2 * u) % 65536) := by
  rw [calc_crc_bit_eq, Nat.testBit_xor, two_mul_xor, xor_mod_65536]
  unfold ccitt_shift
  simp only
  cases hr : r.testBit 15 <;> cases hu : u.testBit 15 <;> simp
  all_goals rw [Nat.xor_assoc, Nat.xor_assoc, Nat.xor_comm (2 * u % 65536)]


theorem crc16_loop_eq_foldl (c : Nat) (bs : List Nat) :
    crc16_loop c bs = bs.foldl calc_crc_update c := by
  induction bs generalizing c with
  | nil => rfl
  | cons b rest ih => rw [crc16_loop, List.foldl_cons, ih]; rfl

theorem calc_crc_bit_lt (c : Nat) : calc_crc_bit c < 65536 := by
  unfold calc_crc_bit
  split <;> omega

theorem calc_crc_update_lt (c b : Nat) : calc_crc_update c b < 65536 :=
  calc_crc_bit_lt _

theorem calc_crc_update_eq_shift (r b : Nat) (hr : r < 65536) :
    calc_crc_update r b = (msb_first_bits b).foldl ccitt_shift r := by
  have hU : ∀ k, k ≤ 7 → ∀ s, calc_crc_bit (s ^^^ ((b <<< (8 + k)) % 65536))
      = ccitt_shift s (b.testBit (7 - k)) ^^^ ((b <<< (8 + (k + 1))) % 65536) := by
    intro k hk s
    rw [calc_crc_bit_xor]
    have h16 : (65536 : Nat) = 2 ^ 16 := by norm_num
    have e1 : ((b <<< (8 + k)) % 65536).testBit 15 = b.testBit (7 - k) := by
      rw [h16, Nat.testBit_mod_two_pow, Nat.testBit_shiftLeft]
      have : 15 - (8 + k) = 7 - k := by omega
      simp [this]; omega
    have e2 : (2 * ((b <<< (8 + k)) % 65536)) % 65536 = (b <<< (8 + (k + 1))) % 65536 := by
      rw [Nat.shiftLeft_eq, Nat.shiftLeft_eq, ← Nat.add_assoc, Nat.pow_succ, ← Nat.mul_assoc]
      generalize b * 2 ^ (8 + k) = t
      omega
    rw [e1, e2]
  have h0 : (r ^^^ (b <<< 8)) % 65536 = r ^^^ ((b <<< (8 + 0)) % 65536) := by
    rw [xor_mod_65536, Nat.mod_eq_of_lt hr]
  have h8 : (b <<< (8 + (7 + 1))) % 65536 = 0 := by
    rw [Nat.shiftLeft_eq]; norm_num
  unfold calc_crc_update
  simp only
  rw [h0, hU 0 (by omega), hU 1 (by omega), hU 2 (by omega), hU 3 (by omega), hU 4 (by omega),
    hU 5 (by omega), hU 6 (by omega), hU 7 (by omega), h8, Nat.xor_zero]
  rfl

theorem foldl_update_eq_shift (data : List Nat) (r : Nat) (hr : r < 65536) :
    data.foldl calc_crc_update r = (data.flatMap msb_first_bits).foldl ccitt_shift r := by
  induction data generalizing r with
  | nil => rfl
  | cons b rest ih =>
    rw [List.foldl_cons, List.flatMap_cons, List.foldl_append, ih _ (calc_crc_update_lt r b),
      calc_crc_update_eq_shift r b hr]

set_option maxRecDepth 100000 in
/-- C4: `crc16` computes CRC-16/CCITT-FALSE (polynomial 0x1021, initial value 0xFFFF,
MSB-first, no reflection, no final xor) for every byte sequence; the check value of
"123456789" is 0x29B1 and the empty sequence gives 0xFFFF. -/
theorem crc16_is_ccitt_false :
    (∀ data : List Nat, crc16 data = crc16_ccitt_false data)
    ∧ crc16 [0x31, 0x32, 0x33, 0x34, 0x35, 0x36, 0x37, 0x38, 0x39] = 0x29B1
    ∧ crc16 [] = 0xFFFF := by
  refine ⟨fun data => ?_, by decide, rfl⟩
  unfold crc16 crc16_ccitt_false
  rw [crc16_loop_eq_foldl, foldl_update_eq_shift _ _ (by norm_num)]

/-- C5: starting at 0xFFFF and applying the decoder's per-byte update to each byte in
order gives `crc16` of the sequence, and folding `b` into `crc16 a` gives
`crc16 (a ++ b)`. -/
theorem incremental_crc_eq_bulk :
    (∀ bs : List Nat, bs.foldl calc_crc_update 0xFFFF = crc16 bs)
    ∧ (∀ a b : List Nat, b.foldl calc_crc_update (crc16 a) = crc16 (a ++ b)) := by
  constructor
  · intro bs
    rw [crc16, crc16_loop_eq_foldl]
  · intro a b
    rw [crc16, crc16, crc16_loop_eq_foldl, crc16_loop_eq_foldl, List.foldl_append]

theorem testBit15_iff (x : Nat) (hx : x < 65536) : x.testBit 15 = true ↔ 32768 ≤ x := by
  rw [Nat.testBit_to_div_mod]
  simp only [decide_eq_true_eq]
  norm_num
  omega

theorem xor_1021_odd (a : Nat) (ha : a % 2 = 0) : (a ^^^ 0x1021) % 2 = 1 := by
  rw [Nat.mod_two_eq_one_iff_testBit_zero, Nat.testBit_xor]
  have h1 : a.testBit 0 = false := Nat.mod_two_eq_zero_iff_testBit_zero.1 ha
  rw [h1]
  decide

theorem calc_crc_bit_inj (x y : Nat) (hx : x < 65536) (hy : y < 65536)
    (h : calc_crc_bit x = calc_crc_bit y) : x = y := by
  rw [calc_crc_bit_eq, calc_crc_bit_eq] at h
  have ex := testBit15_iff x hx
  have ey := testBit15_iff y hy
  have ox := xor_1021_odd (2 * x % 65536) (by omega)
  have oy := xor_1021_odd (2 * y % 65536) (by omega)
  by_cases bx : x.testBit 15 = true <;> by_cases b_y : y.testBit 15 = true
  · rw [if_pos bx, if_pos b_y] at h
    have h2 := Nat.xor_left_inj.1 h
    have := ex.1 bx
    have := ey.1 b_y
    omega
  · rw [if_pos bx, if_neg b_y] at h
    omega
  · rw [if_neg bx, if_pos b_y] at h
    omega
  · rw [if_neg bx, if_neg b_y] at h
    have : ¬ 32768 ≤ x := fun hh => bx (ex.2 hh)
    have : ¬ 32768 ≤ y := fun hh => b_y (ey.2 hh)
    omega

theorem calc_crc_update_inj_state (c c' b : Nat) (hc : c < 65536) (hc' : c' < 65536)
    (h : calc_crc_update c b = calc_crc_update c' b) : c = c' := by
  unfold calc_crc_update at h
  simp only at h
  have lt : ∀ z : Nat, z % 65536 < 65536 := fun z => Nat.mod_lt _ (by norm_num)
  have l1 := fun z => calc_crc_bit_lt z
  have h1 := calc_crc_bit_inj _ _ (l1 _) (l1 _) h
  have h2 := calc_crc_bit_inj _ _ (l1 _) (l1 _) h1
  have h3 := calc_crc_bit_inj _ _ (l1 _) (l1 _) h2
  have h4 := calc_crc_bit_inj _ _ (l1 _) (l1 _) h3
  have h5 := calc_crc_bit_inj _ _ (l1 _) (l1 _) h4
  have h6 := calc_crc_bit_inj _ _ (l1 _) (l1 _) h5
  have h7 := calc_crc_bit_inj _ _ (l1 _) (l1 _) h6
  have h8 := calc_crc_bit_inj _ _ (lt _) (lt _) h7
  rw [xor_mod_65536, xor_mod_65536, Nat.mod_eq_of_lt hc, Nat.mod_eq_of_lt hc'] at h8
  exact Nat.xor_left_inj.1 h8

theorem calc_crc_update_inj_byte (c b b' : Nat) (hb : b < 256) (hb' : b' < 256)
    (h : calc_crc_update c b = calc_crc_update c b') : b = b' := by
  unfold calc_crc_update at h
  simp only at h
  have lt : ∀ z : Nat, z % 65536 < 65536 := fun z => Nat.mod_lt _ (by norm_num)
  have l1 := fun z => calc_crc_bit_lt z
  have h1 := calc_crc_bit_inj _ _ (l1 _) (l1 _) h
  have h2 := calc_crc_bit_inj _ _ (l1 _) (l1 _) h1
  have h3 := calc_crc_bit_inj _ _ (l1 _) (l1 _) h2
  have h4 := calc_crc_bit_inj _ _ (l1 _) (l1 _) h3
  have h5 := calc_crc_bit_inj _ _ (l1 _) (l1 _) h4
  have h6 := calc_crc_bit_inj _ _ (l1 _) (l1 _) h5
  have h7 := calc_crc_bit_inj _ _ (l1 _) (l1 _) h6
  have h8 := calc_crc_bit_inj _ _ (lt _) (lt _) h7
  rw [xor_mod_65536, xor_mod_65536] at h8
  have h9 := Nat.xor_right_inj.1 h8
  rw [Nat.shiftLeft_eq, Nat.shiftLeft_eq] at h9
  omega

theorem foldl_update_lt (l : List Nat) (c : Nat) (hc : c < 65536) :
    l.foldl calc_crc_update c < 65536 := by
  induction l generalizing c with
  | nil => exact hc
  | cons b rest ih => exact ih _ (calc_crc_update_lt c b)

theorem foldl_update_inj_state (l : List Nat) (c c' : Nat) (hc : c < 65536) (hc' : c' < 65536)
    (h : l.foldl calc_crc_update c = l.foldl calc_crc_update c') : c = c' := by
  induction l generalizing c c' with
  | nil => exact h
  | cons b rest ih =>
    exact calc_crc_update_inj_state c c' b hc hc'
      (ih _ _ (calc_crc_update_lt c b) (calc_crc_update_lt c' b) h)

theorem crc16_eq_foldl (bs : List Nat) : crc16 bs = bs.foldl calc_crc_update 0xFFFF := by
  rw [crc16, crc16_loop_eq_foldl]

theorem crc16_one_byte_changed (pre post : List Nat) (x y : Nat) (hx : x < 256) (hy : y < 256)
    (hne : x ≠ y) : crc16 (pre ++ x :: post) ≠ crc16 (pre ++ y :: post) := by
  intro h
  rw [crc16_eq_foldl, crc16_eq_foldl, List.foldl_append, List.foldl_append, List.foldl_cons,
    List.foldl_cons] at h
  have h2 := foldl_update_inj_state post _ _ (calc_crc_update_lt _ _) (calc_crc_update_lt _ _) h
  exact hne (calc_crc_update_inj_byte _ x y hx hy h2)

/-! ## Encoder and decoder: step lemmas -/

theorem put_ok (buf : List Nat) (b : Nat) (h : buf.length < BUFFER_SIZE) :
    put buf b = some (buf ++ [b]) := by
  unfold put; rw [if_pos h]

theorem put_data_ok (buf data : List Nat) (h : buf.length + data.length ≤ BUFFER_SIZE) :
    put_data buf data = some (buf ++ data) := by
  unfold put_data
  by_cases hd : data.length > 0
  · rw [if_pos hd, if_pos h]
  · rw [if_neg hd]
    have : data = [] := List.eq_nil_of_length_eq_zero (by omega)
    rw [this, List.append_nil]

theorem pack_data_transmit_eq (cmd : Nat) (data : List Nat)
    (hlen : data.length ≤ MAX_DATA_LENGTH) :
    pack_data_transmit true cmd data
      = some { sent := [[0xAA, 0x55] ++ BE16 (data.length + 1) ++ [cmd] ++ data
                  ++ BE16 (crc16 (BE16 (data.length + 1) ++ [cmd] ++ data)) ++ [0x55, 0xAA]],
               ret := data.length + 9 } := by
  have hl : data.length ≤ 256 := hlen
  have hmod : (data.length + 1) % 65536 = data.length + 1 := by omega
  unfold pack_data_transmit
  rw [put_ok _ _ (by simp [BUFFER_SIZE, MAX_DATA_LENGTH])]
  simp only [Option.bind_eq_bind, Option.some_bind, hmod]
  rw [put_ok _ _ (by simp [BUFFER_SIZE, MAX_DATA_LENGTH])]
  simp only [Option.some_bind]
  rw [put_ok _ _ (by simp [BUFFER_SIZE, MAX_DATA_LENGTH])]
  simp only [Option.some_bind]
  rw [put_ok _ _ (by simp [BUFFER_SIZE, MAX_DATA_LENGTH])]
  simp only [Option.some_bind]
  rw [put_ok _ _ (by simp [BUFFER_SIZE, MAX_DATA_LENGTH])]
  simp only [Option.some_bind]
  rw [put_data_ok _ _ (by simp [BUFFER_SIZE, MAX_DATA_LENGTH]; omega)]
  simp only [Option.some_bind, if_true]
  rw [put_ok _ _ (by simp [BUFFER_SIZE, MAX_DATA_LENGTH]; omega)]
  simp only [Option.some_bind]
  rw [put_ok _ _ (by simp [BUFFER_SIZE, MAX_DATA_LENGTH]; omega)]
  simp only [Option.some_bind]
  rw [put_ok _ _ (by simp [BUFFER_SIZE, MAX_DATA_LENGTH]; omega)]
  simp only [Option.some_bind]
  rw [put_ok _ _ (by simp [BUFFER_SIZE, MAX_DATA_LENGTH]; omega)]
  simp only [Option.some_bind]
  have hmod2 : (data.length + 1 + 1 + 1 + 1 + 1 + 1 + 1 + 1 + 1) % 65536 = data.length + 9 := by omega
  simp [BE16, FRAME_HEADER, FRAME_END, hmod2]
  decide


theorem feed_nil (u : Bool) (ctx : ParseContext) : feed u ctx [] = some (ctx, []) := rfl

theorem feed_cons_some (u : Bool) (ctx ctx1 : ParseContext) (b : Nat) (rest : List Nat)
    (calls : List HandlerCall) (h : parse_byte u ctx b = some (ctx1, calls)) :
    feed u ctx (b :: rest) = (feed u ctx1 rest).map (fun r => (r.1, calls ++ r.2)) := by
  rw [feed, h]
  simp only
  cases feed u ctx1 rest <;> rfl

theorem feed_append_some (u : Bool) (ctx ctx1 : ParseContext) (a b : List Nat)
    (calls : List HandlerCall) (h : feed u ctx a = some (ctx1, calls)) :
    feed u ctx (a ++ b) = (feed u ctx1 b).map (fun r => (r.1, calls ++ r.2)) := by
  induction a generalizing ctx calls with
  | nil =>
    simp only [feed_nil, Option.some.injEq, Prod.mk.injEq] at h
    obtain ⟨rfl, rfl⟩ := h
    rw [List.nil_append]
    cases feed u ctx b <;> simp
  | cons x rest ih =>
    rw [List.cons_append]
    cases hp : parse_byte u ctx x with
    | none => rw [feed, hp] at h; cases h
    | some r =>
      obtain ⟨c2, cs2⟩ := r
      rw [feed_cons_some u ctx c2 x _ cs2 hp] at h ⊢
      cases hf : feed u c2 rest with
      | none => rw [hf] at h; cases h
      | some r2 =>
        obtain ⟨c3, cs3⟩ := r2
        rw [hf] at h
        simp only [Option.map_some', Option.some.injEq, Prod.mk.injEq] at h
        obtain ⟨rfl, rfl⟩ := h
        rw [ih c2 cs3 hf]
        cases feed u c3 b <;> simp

theorem feed_append_none (u : Bool) (ctx : ParseContext) (a b : List Nat)
    (h : feed u ctx a = none) : feed u ctx (a ++ b) = none := by
  induction a generalizing ctx with
  | nil => cases h
  | cons x rest ih =>
    rw [List.cons_append]
    cases hp : parse_byte u ctx x with
    | none => rw [feed, hp]
    | some r =>
      obtain ⟨c2, cs2⟩ := r
      rw [feed_cons_some u ctx c2 x _ cs2 hp] at h ⊢
      cases hf : feed u c2 rest with
      | none => rw [ih c2 hf]; rfl
      | some r2 => rw [hf] at h; cases h

theorem parse_byte_read_data (ctx : ParseContext) (b : Nat)
    (hs : ctx.state = STATE_READ_DATA) (hi : ctx.data_index < MAX_DATA_LENGTH) :
    parse_byte true ctx b = some ({ ctx with
        state := if ctx.pkg_length ≤ ctx.data_index + 2 then STATE_WAIT_CRC1 else STATE_READ_DATA,
        data_index := ctx.data_index + 1,
        data := ctx.data.set ctx.data_index b,
        calc_crc := calc_crc_update ctx.calc_crc b }, []) := by
  obtain ⟨st, di, len, cmd, data, cc, recv⟩ := ctx
  simp only at hs hi ⊢
  subst hs
  have hi2 : di < 256 := hi
  have hm : (di + 1) % 65536 = di + 1 := by omega
  by_cases hc : len ≤ di + 2
  · have hc2 : (len : Int) ≤ (di : Int) + 1 + 1 := by omega
    simp [parse_byte, parse_switch, MAX_DATA_LENGTH, hm, hc, hc2, hi2, ParseState.ord]
  · have hc2 : ¬ ((len : Int) ≤ (di : Int) + 1 + 1) := by omega
    simp [parse_byte, parse_switch, MAX_DATA_LENGTH, hm, hc, hc2, hi2, ParseState.ord]

theorem read_data_feed (p : List Nat) (ctx : ParseContext)
    (hs : ctx.state = STATE_READ_DATA) (hne : p ≠ [])
    (hcap : ctx.data_index + p.length ≤ MAX_DATA_LENGTH)
    (hlast : ctx.pkg_length ≤ ctx.data_index + p.length + 1)
    (hpre : 2 ≤ p.length → ctx.data_index + p.length < ctx.pkg_length) :
    feed true ctx p = some ({ ctx with
        state := STATE_WAIT_CRC1,
        data_index := ctx.data_index + p.length,
        data := storeAt ctx.data ctx.data_index p,
        calc_crc := p.foldl calc_crc_update ctx.calc_crc }, []) := by
  induction p generalizing ctx with
  | nil => exact absurd rfl hne
  | cons b rest ih =>
    simp only [MAX_DATA_LENGTH, List.length_cons] at hcap hlast hpre
    have hstep := parse_byte_read_data ctx b hs (by simp only [MAX_DATA_LENGTH]; omega)
    rw [feed_cons_some _ _ _ _ _ _ hstep]
    cases rest with
    | nil =>
      simp only [List.length_nil] at hcap hlast hpre
      rw [if_pos (by omega)]
      simp [feed, storeAt]
    | cons b2 rest2 =>
      simp only [List.length_cons] at hcap hlast hpre
      rw [if_neg (by omega)]
      rw [ih]
      · simp [storeAt]
        omega
      · rfl
      · simp
      · simp only [MAX_DATA_LENGTH, List.length_cons]; omega
      · simp only [List.length_cons]; omega
      · simp only [List.length_cons]; omega

theorem and_255 (x : Nat) : x &&& 0xFF = x % 256 := by
  have h := Nat.and_pow_two_sub_one_eq_mod x 8
  norm_num at h
  exact h

theorem shl8_or (a b : Nat) (hb : b < 256) : (a <<< 8) ||| b = a * 256 + b := by
  have h := @Nat.mul_add_lt_is_or 8 b (by norm_num; exact hb) a
  rw [Nat.shiftLeft_eq, Nat.mul_comm a]
  exact h.symm

theorem be16_join (v : Nat) (hv : v < 65536) :
    ((((v >>> 8) &&& 0xFF) <<< 8) % 65536 ||| (v &&& 0xFF)) % 65536 = v := by
  rw [and_255, and_255, Nat.shiftRight_eq_div_pow]
  have e : ((v / 2 ^ 8 % 256) <<< 8) % 65536 = (v / 2 ^ 8 % 256) <<< 8 := by
    rw [Nat.shiftLeft_eq]; norm_num; omega
  rw [e, shl8_or _ _ (by omega)]
  norm_num
  omega

theorem hdr_hi : (FRAME_HEADER >>> 8) &&& 0xFF = 0xAA := by decide
theorem hdr_lo : FRAME_HEADER &&& 0xFF = 0x55 := by decide
theorem end_hi : (FRAME_END >>> 8) &&& 0xFF = 0x55 := by decide
theorem end_lo : FRAME_END &&& 0xFF = 0xAA := by decide

theorem parse_byte_wait_header1 (ctx : ParseContext) (b : Nat)
    (hs : ctx.state = STATE_WAIT_HEADER1) :
    parse_byte true ctx b
      = some (if b = 0xAA then { ctx with state := STATE_WAIT_HEADER2 } else ctx, []) := by
  obtain ⟨st, di, len, cmd, data, cc, recv⟩ := ctx
  simp only at hs ⊢
  subst hs
  by_cases hb : b = 0xAA <;>
    simp [parse_byte, parse_switch, hdr_hi, hb, ParseState.ord]

theorem parse_byte_wait_header2 (ctx : ParseContext) (b : Nat)
    (hs : ctx.state = STATE_WAIT_HEADER2) :
    parse_byte true ctx b
      = some (if b = 0x55 then
                { ctx with state := STATE_WAIT_LENGTH, calc_crc := calc_crc_update 0xFFFF b }
              else { ctx with state := STATE_WAIT_HEADER1 }, []) := by
  obtain ⟨st, di, len, cmd, data, cc, recv⟩ := ctx
  simp only at hs ⊢
  subst hs
  by_cases hb : b = 0x55 <;>
    simp [parse_byte, parse_switch, hdr_lo, hb, ParseState.ord]

theorem parse_byte_wait_length (ctx : ParseContext) (b : Nat)
    (hs : ctx.state = STATE_WAIT_LENGTH) :
    parse_byte true ctx b
      = some ({ ctx with pkg_length := (b <<< 8) % 65536, state := STATE_WAIT_LENGTH_LOW,
                         calc_crc := calc_crc_update ctx.calc_crc b }, []) := by
  obtain ⟨st, di, len, cmd, data, cc, recv⟩ := ctx
  simp only at hs ⊢
  subst hs
  simp [parse_byte, parse_switch, ParseState.ord]

theorem parse_byte_wait_length_low (ctx : ParseContext) (b : Nat)
    (hs : ctx.state = STATE_WAIT_LENGTH_LOW) :
    parse_byte true ctx b
      = some (if (ctx.pkg_length ||| b) % 65536 > MAX_DATA_LENGTH + 3 then
                { ctx with pkg_length := (ctx.pkg_length ||| b) % 65536,
                           state := STATE_WAIT_HEADER1 }
              else
                { ctx with pkg_length := (ctx.pkg_length ||| b) % 65536,
                           state := STATE_WAIT_CMD,
                           calc_crc := calc_crc_update ctx.calc_crc b }, []) := by
  obtain ⟨st, di, len, cmd, data, cc, recv⟩ := ctx
  simp only at hs ⊢
  subst hs
  by_cases hb : (len ||| b) % 65536 > MAX_DATA_LENGTH + 3 <;>
    simp [parse_byte, parse_switch, hb, ParseState.ord]

theorem parse_byte_wait_cmd (ctx : ParseContext) (b : Nat)
    (hs : ctx.state = STATE_WAIT_CMD) :
    parse_byte true ctx b
      = some ({ ctx with cmd := b, data_index := 0, state := STATE_READ_DATA,
                         calc_crc := calc_crc_update ctx.calc_crc b }, []) := by
  obtain ⟨st, di, len, cmd, data, cc, recv⟩ := ctx
  simp only at hs ⊢
  subst hs
  simp [parse_byte, parse_switch, ParseState.ord]

theorem parse_byte_wait_crc1 (ctx : ParseContext) (b : Nat)
    (hs : ctx.state = STATE_WAIT_CRC1) :
    parse_byte true ctx b
      = some ({ ctx with recv_crc := (b <<< 8) % 65536, state := STATE_WAIT_CRC2,
                         calc_crc := calc_crc_update ctx.calc_crc b }, []) := by
  obtain ⟨st, di, len, cmd, data, cc, recv⟩ := ctx
  simp only at hs ⊢
  subst hs
  simp [parse_byte, parse_switch, ParseState.ord]

theorem parse_byte_wait_crc2 (ctx : ParseContext) (b : Nat)
    (hs : ctx.state = STATE_WAIT_CRC2) :
    parse_byte true ctx b
      = some ({ ctx with recv_crc := (ctx.recv_crc ||| b) % 65536,
                         state := if ctx.calc_crc = (ctx.recv_crc ||| b) % 65536
                                  then STATE_WAIT_END1 else STATE_WAIT_HEADER1 }, []) := by
  obtain ⟨st, di, len, cmd, data, cc, recv⟩ := ctx
  simp only at hs ⊢
  subst hs
  by_cases hb : cc = (recv ||| b) % 65536 <;>
    simp [parse_byte, parse_switch, hb, ParseState.ord]

theorem parse_byte_wait_end1 (ctx : ParseContext) (b : Nat)
    (hs : ctx.state = STATE_WAIT_END1) :
    parse_byte true ctx b
      = some ({ ctx with state := if b = 0x55 then STATE_WAIT_END2 else STATE_WAIT_HEADER1 },
              []) := by
  obtain ⟨st, di, len, cmd, data, cc, recv⟩ := ctx
  simp only at hs ⊢
  subst hs
  by_cases hb : b = 0x55 <;>
    simp [parse_byte, parse_switch, end_hi, hb, ParseState.ord]

theorem parse_byte_wait_end2 (ctx : ParseContext) (b : Nat)
    (hs : ctx.state = STATE_WAIT_END2) :
    parse_byte true ctx b
      = some ({ ctx with state := STATE_WAIT_HEADER1 },
              if b = 0xAA then
                [{ cmd := ctx.cmd, data := ctx.data.take ctx.data_index, len := ctx.data_index }]
              else []) := by
  obtain ⟨st, di, len, cmd, data, cc, recv⟩ := ctx
  simp only at hs ⊢
  subst hs
  by_cases hb : b = 0xAA <;>
    simp [parse_byte, parse_switch, end_lo, hb, ParseState.ord]

theorem feed_head (ctx : ParseContext) (hi lo cmd : Nat)
    (hs : ctx.state = STATE_WAIT_HEADER1)
    (hmax : ((hi <<< 8) % 65536 ||| lo) % 65536 ≤ MAX_DATA_LENGTH + 3) :
    feed true ctx [0xAA, 0x55, hi, lo, cmd] = some ({ ctx with
        state := STATE_READ_DATA,
        data_index := 0,
        pkg_length := ((hi <<< 8) % 65536 ||| lo) % 65536,
        cmd := cmd,
        calc_crc := [0x55, hi, lo, cmd].foldl calc_crc_update 0xFFFF }, []) := by
  rw [feed_cons_some _ _ _ _ _ _ (parse_byte_wait_header1 ctx _ hs), if_pos rfl,
    feed_cons_some _ _ _ _ _ _ (parse_byte_wait_header2 _ _ rfl), if_pos rfl,
    feed_cons_some _ _ _ _ _ _ (parse_byte_wait_length _ _ rfl),
    feed_cons_some _ _ _ _ _ _ (parse_byte_wait_length_low _ _ rfl),
    if_neg (by simpa using hmax),
    feed_cons_some _ _ _ _ _ _ (parse_byte_wait_cmd _ _ rfl), feed_nil]
  simp

theorem feed_tail (ctx : ParseContext) (h l : Nat) (hs : ctx.state = STATE_WAIT_CRC1) :
    feed true ctx [h, l, 0x55, 0xAA] = some ({ ctx with
        state := if calc_crc_update ctx.calc_crc h = ((h <<< 8) % 65536 ||| l) % 65536
                 then STATE_WAIT_HEADER1 else STATE_WAIT_HEADER2,
        calc_crc := calc_crc_update ctx.calc_crc h,
        recv_crc := ((h <<< 8) % 65536 ||| l) % 65536 },
      if calc_crc_update ctx.calc_crc h = ((h <<< 8) % 65536 ||| l) % 65536 then
        [{ cmd := ctx.cmd, data := ctx.data.take ctx.data_index, len := ctx.data_index }]
      else []) := by
  rw [feed_cons_some _ _ _ _ _ _ (parse_byte_wait_crc1 ctx _ hs),
    feed_cons_some _ _ _ _ _ _ (parse_byte_wait_crc2 _ _ rfl)]
  by_cases hc : calc_crc_update ctx.calc_crc h = ((h <<< 8) % 65536 ||| l) % 65536
  · simp only [hc, if_true]
    rw [feed_cons_some _ _ _ _ _ _ (parse_byte_wait_end1 _ _ rfl), if_pos rfl,
      feed_cons_some _ _ _ _ _ _ (parse_byte_wait_end2 _ _ rfl), if_pos rfl, feed_nil]
    simp
  · simp only [hc, if_false]
    rw [feed_cons_some _ _ _ _ _ _ (parse_byte_wait_header1 _ _ rfl), if_neg (by decide),
      feed_cons_some _ _ _ _ _ _ (parse_byte_wait_header1 _ _ rfl), if_pos rfl, feed_nil]
    simp

theorem storeAt_length (buf : List Nat) (i : Nat) (p : List Nat) :
    (storeAt buf i p).length = buf.length := by
  induction p generalizing buf i with
  | nil => rfl
  | cons b rest ih => rw [storeAt, ih, List.length_set]

theorem take_storeAt (buf : List Nat) (i : Nat) (p : List Nat)
    (h : i + p.length ≤ buf.length) :
    (storeAt buf i p).take (i + p.length) = buf.take i ++ p := by
  induction p generalizing buf i with
  | nil => simp [storeAt]
  | cons b rest ih =>
    simp only [List.length_cons] at h
    have e : i + (b :: rest).length = (i + 1) + rest.length := by simp; omega
    rw [storeAt, e, ih _ _ (by rw [List.length_set]; omega)]
    rw [List.take_succ, List.set_take, List.set_eq_of_length_le (by simp),
      List.getElem?_set_self (by omega)]
    simp

theorem feed_frame (ctx : ParseContext) (hi lo cmd h l : Nat) (p : List Nat)
    (hs : ctx.state = STATE_WAIT_HEADER1) (hd : ctx.data.length = MAX_DATA_LENGTH)
    (hne : p ≠ []) (hcap : p.length ≤ MAX_DATA_LENGTH)
    (hlast : ((hi <<< 8) % 65536 ||| lo) % 65536 ≤ p.length + 1)
    (hpre : 2 ≤ p.length → p.length < ((hi <<< 8) % 65536 ||| lo) % 65536) :
    feed true ctx ([0xAA, 0x55, hi, lo, cmd] ++ p ++ [h, l, 0x55, 0xAA])
      = some ({ state := if crc16 ([0x55, hi, lo, cmd] ++ p ++ [h])
                            = ((h <<< 8) % 65536 ||| l) % 65536
                         then STATE_WAIT_HEADER1 else STATE_WAIT_HEADER2,
                data_index := p.length,
                pkg_length := ((hi <<< 8) % 65536 ||| lo) % 65536,
                cmd := cmd,
                data := storeAt ctx.data 0 p,
                calc_crc := crc16 ([0x55, hi, lo, cmd] ++ p ++ [h]),
                recv_crc := ((h <<< 8) % 65536 ||| l) % 65536 },
              if crc16 ([0x55, hi, lo, cmd] ++ p ++ [h]) = ((h <<< 8) % 65536 ||| l) % 65536
              then [{ cmd := cmd, data := p, len := p.length }] else []) := by
  have hcap2 : p.length ≤ 256 := hcap
  have hhead := feed_head ctx hi lo cmd hs (by simp only [MAX_DATA_LENGTH]; omega)
  have hbody := read_data_feed p _ (rfl : ({ ctx with
        state := STATE_READ_DATA,
        data_index := 0,
        pkg_length := ((hi <<< 8) % 65536 ||| lo) % 65536,
        cmd := cmd,
        calc_crc := [0x55, hi, lo, cmd].foldl calc_crc_update 0xFFFF } : ParseContext).state = _)
      hne (by simpa using hcap) (by simpa using hlast) (by simpa using hpre)
  have htail := feed_tail _ h l (rfl : ({ ctx with
        state := STATE_WAIT_CRC1,
        data_index := 0 + p.length,
        pkg_length := ((hi <<< 8) % 65536 ||| lo) % 65536,
        cmd := cmd,
        data := storeAt ctx.data 0 p,
        calc_crc := p.foldl calc_crc_update ([0x55, hi, lo, cmd].foldl calc_crc_update 0xFFFF) }
          : ParseContext).state = _)
  rw [List.append_assoc, feed_append_some _ _ _ _ _ _ hhead, feed_append_some _ _ _ _ _ _ hbody,
    htail]
  have htake : (storeAt ctx.data 0 p).take p.length = p := by
    have := take_storeAt ctx.data 0 p (by rw [hd]; simpa using hcap)
    simpa using this
  have hw : crc16 ([0x55, hi, lo, cmd] ++ p ++ [h])
      = calc_crc_update (p.foldl calc_crc_update ([0x55, hi, lo, cmd].foldl calc_crc_update 0xFFFF)) h := by
    rw [crc16_eq_foldl, List.foldl_append, List.foldl_append]; rfl
  simp only [Nat.zero_add, htake, ← hw, Option.map_some', List.nil_append]

theorem decode_eq (bytes : List Nat) :
    decode bytes = (feed true serial_protocol_init bytes).map Prod.snd := rfl

theorem transmitted_eq (cmd : Nat) (data : List Nat) (hlen : data.length ≤ MAX_DATA_LENGTH) :
    transmitted cmd data
      = [0xAA, 0x55, ((data.length + 1) >>> 8) &&& 0xFF, (data.length + 1) &&& 0xFF, cmd] ++ data
        ++ [(crc16 (BE16 (data.length + 1) ++ [cmd] ++ data) >>> 8) &&& 0xFF,
            crc16 (BE16 (data.length + 1) ++ [cmd] ++ data) &&& 0xFF, 0x55, 0xAA] := by
  unfold transmitted
  rw [USE_CRC16, pack_data_transmit_eq cmd data hlen]
  simp [BE16]

theorem crc16_lt (bs : List Nat) : crc16 bs < 65536 := by
  rw [crc16_eq_foldl]
  exact foldl_update_lt bs _ (by norm_num)

theorem decode_frame (hi lo cmd h l : Nat) (p : List Nat)
    (hne : p ≠ []) (hcap : p.length ≤ MAX_DATA_LENGTH)
    (hlast : ((hi <<< 8) % 65536 ||| lo) % 65536 ≤ p.length + 1)
    (hpre : 2 ≤ p.length → p.length < ((hi <<< 8) % 65536 ||| lo) % 65536) :
    decode ([0xAA, 0x55, hi, lo, cmd] ++ p ++ [h, l, 0x55, 0xAA])
      = some (if crc16 ([0x55, hi, lo, cmd] ++ p ++ [h]) = ((h <<< 8) % 65536 ||| l) % 65536
              then [{ cmd := cmd, data := p, len := p.length }] else []) := by
  rw [decode_eq, feed_frame serial_protocol_init hi lo cmd h l p rfl
    (by simp [serial_protocol_init]) hne hcap hlast hpre]
  rfl

theorem decode_short_frame (cmd h l : Nat) :
    decode [0xAA, 0x55, 0x00, 0x01, cmd, h, l, 0x55, 0xAA] = some [] := by
  have hhead := feed_head serial_protocol_init 0x00 0x01 cmd rfl (by decide)
  have e : [0xAA, 0x55, 0x00, 0x01, cmd, h, l, 0x55, 0xAA]
      = [0xAA, 0x55, 0x00, 0x01, cmd] ++ [h, l, 0x55, 0xAA] := rfl
  rw [decode_eq, e, feed_append_some _ _ _ _ _ _ hhead,
    feed_cons_some _ _ _ _ _ _ (parse_byte_read_data _ _ rfl (by simp [MAX_DATA_LENGTH])),
    if_pos (by simp),
    feed_cons_some _ _ _ _ _ _ (parse_byte_wait_crc1 _ _ rfl),
    feed_cons_some _ _ _ _ _ _ (parse_byte_wait_crc2 _ _ rfl)]
  split
  · rw [feed_cons_some _ _ _ _ _ _ (parse_byte_wait_end1 _ _ rfl), if_neg (by decide),
      feed_nil]
    rfl
  · rw [feed_cons_some _ _ _ _ _ _ (parse_byte_wait_header1 _ _ rfl), feed_nil]
    rfl

theorem flipBit_append_left (a b : List Nat) (i k : Nat) (hi : i < a.length) :
    flipBit (a ++ b) i k = flipBit a i k ++ b := by
  induction a generalizing i with
  | nil => simp at hi
  | cons x rest ih =>
    cases i with
    | zero => rfl
    | succ j =>
      simp only [List.length_cons] at hi
      show x :: flipBit (rest ++ b) j k = x :: (flipBit rest j k ++ b)
      rw [ih j (by omega)]

theorem flipBit_append_right (a b : List Nat) (i k : Nat) :
    flipBit (a ++ b) (a.length + i) k = a ++ flipBit b i k := by
  induction a with
  | nil => simp
  | cons x rest ih =>
    have e : (x :: rest).length + i = (rest.length + i) + 1 := by simp; omega
    rw [e]
    show x :: flipBit (rest ++ b) (rest.length + i) k = x :: (rest ++ flipBit b i k)
    rw [ih]

theorem flipBit_split (l : List Nat) (i k : Nat) (hi : i < l.length) :
    ∃ pre x post, l = pre ++ x :: post ∧ flipBit l i k = pre ++ (x ^^^ (1 <<< k)) :: post := by
  induction l generalizing i with
  | nil => simp at hi
  | cons y rest ih =>
    cases i with
    | zero => exact ⟨[], y, rest, rfl, rfl⟩
    | succ j =>
      simp only [List.length_cons] at hi
      obtain ⟨pre, x, post, h1, h2⟩ := ih j (by omega)
      exact ⟨y :: pre, x, post, by rw [h1]; rfl, by simp only [flipBit, h2]; rfl⟩

theorem flipBit_length (l : List Nat) (i k : Nat) : (flipBit l i k).length = l.length := by
  induction l generalizing i with
  | nil => rfl
  | cons y rest ih =>
    cases i with
    | zero => rfl
    | succ j => simp only [flipBit, List.length_cons, ih]

theorem xor_bit_ne (x k : Nat) : x ^^^ (1 <<< k) ≠ x := by
  intro h
  have h0 : x ^^^ (1 <<< k) = x ^^^ 0 := by rw [h, Nat.xor_zero]
  have h1 := Nat.xor_right_inj.1 h0
  rw [Nat.one_shiftLeft] at h1
  have := Nat.pos_pow_of_pos k (show 0 < 2 by norm_num)
  omega

theorem xor_bit_lt (x k : Nat) (hx : x < 256) (hk : k < 8) : x ^^^ (1 <<< k) < 256 := by
  have h1 : x < 2 ^ 8 := by norm_num; exact hx
  have h2 : 1 <<< k < 2 ^ 8 := by
    rw [Nat.one_shiftLeft]
    exact Nat.pow_lt_pow_right (by norm_num) hk
  have := Nat.xor_lt_two_pow h1 h2
  norm_num at this
  exact this

/-- C8 (amended): for every cmd, every payload of length 0..MAX_DATA_LENGTH and every single
bit position inside the cmd byte or the payload bytes of the encoded frame (byte index `i`
with 4 ≤ i < 5 + n, bit `k` < 8): if the frame as transmitted makes the decoder call the
handler, then the frame with that one bit flipped, fed to a freshly initialised decoder,
yields zero handler calls. -/
theorem one_bit_flip_rejected (cmd : Nat) (payload : List Nat) (i k : Nat)
    (hcmd : cmd < 256) (hpay : ∀ b ∈ payload, b < 256)
    (hlen : payload.length ≤ MAX_DATA_LENGTH)
    (hlo : 4 ≤ i) (hhi : i < 5 + payload.length) (hk : k < 8)
    (hacc : decode (transmitted cmd payload) ≠ some []) :
    decode (flipBit (transmitted cmd payload) i k) = some [] := by
  have hlen2 : payload.length ≤ 256 := hlen
  rw [transmitted_eq cmd payload hlen] at hacc ⊢
  generalize hc : crc16 (BE16 (payload.length + 1) ++ [cmd] ++ payload) = c at hacc ⊢
  have hclt : c < 65536 := by rw [← hc]; exact crc16_lt _
  have hR := be16_join c hclt
  have hL := be16_join (payload.length + 1) (by omega)
  generalize hh : (c >>> 8) &&& 0xFF = h at hacc hR ⊢
  generalize hl : c &&& 0xFF = l at hacc hR ⊢
  generalize hLH : ((payload.length + 1) >>> 8) &&& 0xFF = LH at hacc hL ⊢
  generalize hLL : (payload.length + 1) &&& 0xFF = LL at hacc hL ⊢
  by_cases hp : payload = []
  · exfalso
    subst hp
    apply hacc
    have e1 : LH = 0 := by rw [← hLH]; decide
    have e2 : LL = 1 := by rw [← hLL]; decide
    rw [e1, e2]
    exact decode_short_frame cmd h l
  · have hacc2 : crc16 ([0x55, LH, LL, cmd] ++ payload ++ [h]) = c := by
      by_contra hne
      apply hacc
      rw [decode_frame LH LL cmd h l payload hp hlen (by rw [hL]) (by rw [hL]; omega), hR,
        if_neg hne]
    obtain ⟨j, rfl⟩ : ∃ j, i = 4 + j := ⟨i - 4, by omega⟩
    have e : [0xAA, 0x55, LH, LL, cmd] ++ payload ++ [h, l, 0x55, 0xAA]
        = [0xAA, 0x55, LH, LL] ++ ((cmd :: payload) ++ [h, l, 0x55, 0xAA]) := rfl
    have e4 : 4 + j = [0xAA, 0x55, LH, LL].length + j := rfl
    rw [e, e4, flipBit_append_right,
      flipBit_append_left _ _ _ _ (by simp only [List.length_cons]; omega)]
    cases j with
    | zero =>
      have e5 : [0xAA, 0x55, LH, LL] ++ (flipBit (cmd :: payload) 0 k ++ [h, l, 0x55, 0xAA])
          = [0xAA, 0x55, LH, LL, cmd ^^^ (1 <<< k)] ++ payload ++ [h, l, 0x55, 0xAA] := rfl
      rw [e5, decode_frame LH LL _ h l payload hp hlen (by rw [hL]) (by rw [hL]; omega), hR,
        if_neg]
      rw [← hacc2]
      exact crc16_one_byte_changed [0x55, LH, LL] (payload ++ [h]) _ _
        (xor_bit_lt cmd k hcmd hk) hcmd (xor_bit_ne cmd k)
    | succ j2 =>
      obtain ⟨pre, x, post, h1, h2⟩ := flipBit_split payload j2 k (by omega)
      have hx : x < 256 := hpay x (by rw [h1]; simp)
      have e5 : [0xAA, 0x55, LH, LL] ++ (flipBit (cmd :: payload) (j2 + 1) k
            ++ [h, l, 0x55, 0xAA])
          = [0xAA, 0x55, LH, LL, cmd] ++ flipBit payload j2 k ++ [h, l, 0x55, 0xAA] := rfl
      have hfl := flipBit_length payload j2 k
      have hp2 : flipBit payload j2 k ≠ [] := by
        intro h0
        rw [h0] at hfl
        exact hp (List.eq_nil_of_length_eq_zero hfl.symm)
      rw [e5, decode_frame LH LL cmd h l _ hp2 (by rw [hfl]; exact hlen)
        (by rw [hL, hfl]) (by rw [hL, hfl]; omega), hR, if_neg]
      rw [← hacc2, h2, h1]
      have := crc16_one_byte_changed ([0x55, LH, LL, cmd] ++ pre) (post ++ [h]) _ _
        (xor_bit_lt x k hx hk) hx (xor_bit_ne x k)
      simpa using this

theorem take_succ_set (d : List Nat) (i b : Nat) (hi : i < d.length) :
    (d.set i b).take (i + 1) = d.take i ++ [b] := by
  rw [List.take_succ, List.set_take, List.set_eq_of_length_le (by simp),
    List.getElem?_set_self hi]
  rfl

theorem parse_byte_agree (u : Bool) (c1 c2 : ParseContext) (b : Nat) (h : agree c1 c2) :
    agreeRes (parse_byte u c1 b) (parse_byte u c2 b) := by
  obtain ⟨s1, i1, n1, m1, d1, k1, r1⟩ := c1
  obtain ⟨s2, i2, n2, m2, d2, k2, r2⟩ := c2
  obtain ⟨hs, hl1, hl2, hk, hn, hm, hr⟩ := h
  simp only at hs hl1 hl2 hk hn hm hr
  subst hs
  cases s1 <;> simp only [ParseState.ord] at hk hn hm hr <;> norm_num at hk hn hm hr
  case STATE_WAIT_HEADER1 =>
    by_cases hb : b = 0xAA <;> cases u <;>
      simp [parse_byte, parse_switch, hdr_hi, hb, ParseState.ord, agree, agreeRes, hl1, hl2]
  case STATE_WAIT_HEADER2 =>
    by_cases hb : b = 0x55 <;> cases u <;>
      simp [parse_byte, parse_switch, hdr_lo, hb, ParseState.ord, agree, agreeRes, hl1, hl2]
  case STATE_WAIT_LENGTH =>
    cases u <;>
      simp [parse_byte, parse_switch, ParseState.ord, agree, agreeRes, hl1, hl2, hk]
  case STATE_WAIT_LENGTH_LOW =>
    subst hn
    by_cases hb : (n1 ||| b) % 65536 > MAX_DATA_LENGTH + 3 <;> cases u <;>
      simp [parse_byte, parse_switch, ParseState.ord, agree, agreeRes, hl1, hl2, hk, hb]
  case STATE_WAIT_CMD =>
    cases u <;>
      simp [parse_byte, parse_switch, ParseState.ord, agree, agreeRes, hl1, hl2, hk, hn]
  case STATE_READ_DATA =>
    obtain ⟨rfl, rfl, ht⟩ := hm
    subst hn
    subst hk
    by_cases hi : i1 < MAX_DATA_LENGTH
    · have hi2 : i1 < 256 := hi
      have hmod : (i1 + 1) % 65536 = i1 + 1 := by omega
      have t1 := take_succ_set d1 i1 b (by rw [hl1]; exact hi)
      have t2 := take_succ_set d2 i1 b (by rw [hl2]; exact hi)
      by_cases hc : (n1 : Int) ≤ (i1 : Int) + 1 + 1 <;> cases u <;>
        simp [parse_byte, parse_switch, ParseState.ord, agree, agreeRes, hl1, hl2, hi, hmod, hc,
          t1, t2, ht]
    · cases u <;> simp [parse_byte, parse_switch, agreeRes, hi]
  case STATE_WAIT_CRC1 =>
    obtain ⟨rfl, rfl, ht⟩ := hm
    cases u <;>
      simp [parse_byte, parse_switch, ParseState.ord, agree, agreeRes, hl1, hl2, hk, ht]
  case STATE_WAIT_CRC2 =>
    obtain ⟨rfl, rfl, ht⟩ := hm
    subst hr
    subst hk
    by_cases hc : k1 = (r1 ||| b) % 65536 <;> cases u <;>
      simp [parse_byte, parse_switch, ParseState.ord, agree, agreeRes, hl1, hl2, ht, hc]
  case STATE_WAIT_END1 =>
    obtain ⟨rfl, rfl, ht⟩ := hm
    by_cases hb : b = 0x55 <;> cases u <;>
      simp [parse_byte, parse_switch, end_hi, hb, ParseState.ord, agree, agreeRes, hl1, hl2, ht]
  case STATE_WAIT_END2 =>
    obtain ⟨rfl, rfl, ht⟩ := hm
    by_cases hb : b = 0xAA <;> cases u <;>
      simp [parse_byte, parse_switch, end_lo, hb, ParseState.ord, agree, agreeRes, hl1, hl2, ht]

theorem feed_agree (u : Bool) (bs : List Nat) (c1 c2 : ParseContext) (h : agree c1 c2) :
    agreeRes (feed u c1 bs) (feed u c2 bs) := by
  induction bs generalizing c1 c2 with
  | nil => exact ⟨rfl, h⟩
  | cons b rest ih =>
    have hstep := parse_byte_agree u c1 c2 b h
    cases hp1 : parse_byte u c1 b with
    | none =>
      cases hp2 : parse_byte u c2 b with
      | none => rw [feed, feed, hp1, hp2]; trivial
      | some r2 => rw [hp1, hp2] at hstep; exact hstep.elim
    | some r1 =>
      cases hp2 : parse_byte u c2 b with
      | none => rw [hp1, hp2] at hstep; exact hstep.elim
      | some r2 =>
        obtain ⟨e1, cs1⟩ := r1
        obtain ⟨e2, cs2⟩ := r2
        rw [hp1, hp2] at hstep
        obtain ⟨hcs, hag⟩ := hstep
        simp only at hcs hag
        subst hcs
        have hrest := ih e1 e2 hag
        rw [feed_cons_some u c1 e1 b rest cs1 hp1, feed_cons_some u c2 e2 b rest cs1 hp2]
        cases hf1 : feed u e1 rest with
        | none =>
          cases hf2 : feed u e2 rest with
          | none => trivial
          | some q2 => rw [hf1, hf2] at hrest; exact hrest.elim
        | some q1 =>
          cases hf2 : feed u e2 rest with
          | none => rw [hf1, hf2] at hrest; exact hrest.elim
          | some q2 =>
            rw [hf1, hf2] at hrest
            obtain ⟨hq, hqa⟩ := hrest
            exact ⟨by simp only [Option.map_some']; rw [hq], hqa⟩

theorem agreeRes_calls (r1 r2 : Option (ParseContext × List HandlerCall))
    (h : agreeRes r1 r2) : r1.map Prod.snd = r2.map Prod.snd := by
  cases r1 with
  | none =>
    cases r2 with
    | none => rfl
    | some q2 => exact h.elim
  | some q1 =>
    cases r2 with
    | none => exact h.elim
    | some q2 => simp only [Option.map_some']; rw [h.1]

theorem agree_init : agree serial_protocol_init serial_protocol_init := by
  simp [agree, serial_protocol_init]

theorem feed_init_data_length (bytes : List Nat) (ctx : ParseContext)
    (calls : List HandlerCall)
    (h : feed USE_CRC16 serial_protocol_init bytes = some (ctx, calls)) :
    ctx.data.length = MAX_DATA_LENGTH := by
  have := feed_agree USE_CRC16 bytes _ _ agree_init
  rw [h] at this
  exact this.2.2.1

/-! ## Claims about the encoder and about concrete frames -/

/-- C3: for every cmd and every payload of length n ≤ MAX_DATA_LENGTH, `pack_data_transmit`
hands the transmit function exactly the bytes
`[0xAA, 0x55] ++ BE16 (n+1) ++ [cmd] ++ payload ++ BE16 (crc16 (BE16 (n+1) ++ [cmd] ++ payload))
++ [0x55, 0xAA]` (the CRC covers length, cmd and payload only); for cmd 0x01 and payload
`[0x02, 0x03]` these are AA 55 00 03 01 02 03, the big-endian CRC of 00 03 01 02 03, 55 AA. -/
theorem pack_data_transmit_wire_format (cmd : Nat) (data : List Nat)
    (hlen : data.length ≤ MAX_DATA_LENGTH) :
    (pack_data_transmit USE_CRC16 cmd data).map TxResult.sent
        = some [[0xAA, 0x55] ++ BE16 (data.length + 1) ++ [cmd] ++ data
                ++ BE16 (crc16 (BE16 (data.length + 1) ++ [cmd] ++ data)) ++ [0x55, 0xAA]]
    ∧ (pack_data_transmit USE_CRC16 0x01 [0x02, 0x03]).map TxResult.sent
        = some [[0xAA, 0x55, 0x00, 0x03, 0x01, 0x02, 0x03]
                ++ BE16 (crc16 [0x00, 0x03, 0x01, 0x02, 0x03]) ++ [0x55, 0xAA]] := by
  constructor
  · rw [USE_CRC16, pack_data_transmit_eq cmd data hlen]; rfl
  · rw [USE_CRC16, pack_data_transmit_eq 0x01 [0x02, 0x03] (by decide)]; rfl

/-- C3 (witness): the wire format at cmd 0x42 with the three-byte payload
`[0x10, 0x20, 0x30]`. -/
theorem pack_data_transmit_wire_format_witness :
    [0x10, 0x20, 0x30].length ≤ MAX_DATA_LENGTH
    ∧ (pack_data_transmit USE_CRC16 0x42 [0x10, 0x20, 0x30]).map TxResult.sent
        = some [[0xAA, 0x55] ++ BE16 ([0x10, 0x20, 0x30].length + 1) ++ [0x42] ++ [0x10, 0x20, 0x30]
                ++ BE16 (crc16 (BE16 ([0x10, 0x20, 0x30].length + 1) ++ [0x42] ++ [0x10, 0x20, 0x30]))
                ++ [0x55, 0xAA]] :=
  ⟨by decide, (pack_data_transmit_wire_format 0x42 [0x10, 0x20, 0x30] (by decide)).1⟩

set_option maxRecDepth 100000 in
/-- C1 (failing input): the frame `pack_data_transmit` sends for cmd 0x42 and payload
`[0x10, 0x20, 0x30]`, fed byte by byte to a freshly initialised decoder, produces no
handler call at all. -/
theorem roundtrip_lost_frame :
    transmitted 0x42 [0x10, 0x20, 0x30]
        = [0xAA, 0x55, 0x00, 0x04, 0x42, 0x10, 0x20, 0x30, 0x77, 0x34, 0x55, 0xAA]
    ∧ decode (transmitted 0x42 [0x10, 0x20, 0x30]) = some [] := by
  decide

set_option maxRecDepth 100000 in
/-- C2 (failing input): in the literal scenario (cmd 0x01, payload `[0x02, 0x03]`) the
encoder sends AA 55 00 03 01 02 03 EB E1 55 AA and a freshly initialised decoder fed
these bytes makes no handler call. -/
theorem literal_scenario_no_call :
    transmitted 0x01 [0x02, 0x03]
        = [0xAA, 0x55, 0x00, 0x03, 0x01, 0x02, 0x03, 0xEB, 0xE1, 0x55, 0xAA]
    ∧ decode (transmitted 0x01 [0x02, 0x03]) = some [] := by
  decide

set_option maxRecDepth 100000 in
/-- C6 (failing input): after the header and the length bytes 01 02 (length 258, which is
greater than MAX_DATA_LENGTH + 1) the decoder is in STATE_WAIT_CMD, not back in
STATE_WAIT_HEADER1. -/
theorem length_258_not_rejected :
    MAX_DATA_LENGTH + 1 < 0x0102
    ∧ stateAfter [0xAA, 0x55, 0x01, 0x02] = some STATE_WAIT_CMD := by
  decide

set_option maxRecDepth 1000000 in
/-- C7 (failing input): header, length 258, a cmd byte and 257 payload bytes: the 257th
payload byte is stored at index 256 of the 256-byte buffer, so the run faults, while the
first 256 payload bytes are stored without a fault. -/
theorem payload_store_out_of_range :
    decode ([0xAA, 0x55, 0x01, 0x02, 0x00] ++ List.replicate 257 0) = none
    ∧ decode ([0xAA, 0x55, 0x01, 0x02, 0x00] ++ List.replicate 256 0) = some [] := by
  decide

set_option maxRecDepth 100000 in
/-- C9 (failing input): two noise bytes without any header byte, followed by the frame the
encoder sends for cmd 0x01 and payload `[0x02, 0x03]`: the decoder makes no handler call. -/
theorem noise_then_frame_no_call :
    decode ([0x00, 0x11] ++ transmitted 0x01 [0x02, 0x03]) = some [] := by
  decide

/-- C10 (amended): for every corrupted frame that the decoder has dropped by its last byte
(fed to a freshly initialised decoder it causes no handler call and leaves the decoder in
STATE_WAIT_HEADER1), immediately followed by any frame, feeding both to a freshly
initialised decoder yields exactly the handler calls that the second frame alone yields on
a freshly initialised decoder. -/
theorem recovery_after_dropped_frame (bad next : List Nat)
    (hcalls : decode bad = some []) (hstate : stateAfter bad = some STATE_WAIT_HEADER1) :
    decode (bad ++ next) = decode next := by
  unfold decode stateAfter at *
  cases hf : feed USE_CRC16 serial_protocol_init bad with
  | none => rw [hf] at hcalls; cases hcalls
  | some r =>
    obtain ⟨ctx, calls⟩ := r
    rw [hf] at hcalls hstate
    simp only [Option.map_some', Option.some.injEq] at hcalls hstate
    subst hcalls
    have hlen := feed_init_data_length bad ctx [] hf
    have hag : agree ctx serial_protocol_init := by
      refine ⟨hstate, hlen, ?_, ?_, ?_, ?_, ?_⟩ <;> simp [hstate, serial_protocol_init, ParseState.ord]
    have h2 := agreeRes_calls _ _ (feed_agree USE_CRC16 next _ _ hag)
    rw [feed_append_some _ _ _ _ _ _ hf, ← h2]
    cases feed USE_CRC16 ctx next <;> simp

set_option maxRecDepth 100000 in
/-- C10 (witness): the frame for cmd 0x01, payload `[0x02, 0x03]`
with its last trailer byte altered to 0xAB is dropped, and the frame for cmd 0x1F, payload
`[0xEA]` that follows is handled as it is on a freshly initialised decoder. -/
theorem recovery_after_dropped_frame_witness :
    decode [0xAA, 0x55, 0x00, 0x03, 0x01, 0x02, 0x03, 0xEB, 0xE1, 0x55, 0xAB] = some []
    ∧ stateAfter [0xAA, 0x55, 0x00, 0x03, 0x01, 0x02, 0x03, 0xEB, 0xE1, 0x55, 0xAB]
        = some STATE_WAIT_HEADER1
    ∧ decode ([0xAA, 0x55, 0x00, 0x03, 0x01, 0x02, 0x03, 0xEB, 0xE1, 0x55, 0xAB]
        ++ transmitted 0x1F [0xEA]) = decode (transmitted 0x1F [0xEA]) :=
  ⟨by decide, by decide,
    recovery_after_dropped_frame [0xAA, 0x55, 0x00, 0x03, 0x01, 0x02, 0x03, 0xEB, 0xE1, 0x55, 0xAB]
      (transmitted 0x1F [0xEA]) (by decide) (by decide)⟩

set_option maxRecDepth 100000 in
/-- C10 (counterexample): the frame for cmd 0x1F, payload `[0xEA]` is valid and, fed alone to
a freshly initialised decoder, gives one handler call; preceded by the frame for cmd 0x01,
payload `[0x02]` corrupted in bit 7 of its length low byte (length 2 read as 130), it gives
no handler call, because the decoder is still reading the corrupted frame's payload. -/
theorem corrupted_length_swallows_next_frame :
    decode (transmitted 0x1F [0xEA]) = some [{ cmd := 0x1F, data := [0xEA], len := 1 }]
    ∧ flipBit (transmitted 0x01 [0x02]) 3 7
        = [0xAA, 0x55, 0x00, 0x82, 0x01, 0x02, 0xF9, 0xD3, 0x55, 0xAA]
    ∧ decode (flipBit (transmitted 0x01 [0x02]) 3 7) = some []
    ∧ decode (flipBit (transmitted 0x01 [0x02]) 3 7 ++ transmitted 0x1F [0xEA]) = some []
    ∧ stateAfter (flipBit (transmitted 0x01 [0x02]) 3 7 ++ transmitted 0x1F [0xEA])
        = some STATE_READ_DATA := by
  decide

set_option maxRecDepth 100000 in
/-- C8 (witness): the frame for cmd 0x1F, payload `[0xEA]` makes the
decoder call the handler; with bit 3 of its payload byte (byte index 5) flipped it yields
no handler call. -/
theorem one_bit_flip_rejected_witness :
    decode (transmitted 0x1F [0xEA]) ≠ some []
    ∧ decode (flipBit (transmitted 0x1F [0xEA]) 5 3) = some [] :=
  ⟨by decide,
    one_bit_flip_rejected 0x1F [0xEA] 5 3 (by decide) (by decide) (by decide) (by decide)
      (by decide) (by decide) (by decide)⟩

set_option maxRecDepth 100000 in
/-- C8 (counterexample): cmd 0x01, payload `[0x00, 0x00, 0x2F, 0x15, 0x55, 0xAA]`; flipping
bit 2 of the length low byte (byte index 3, inside the CRC-covered range) turns the length
field 7 into 3, and the decoder fed the flipped frame calls the handler once, with cmd 0x01
and payload `[0x00, 0x00]`. -/
theorem length_bit_flip_accepted :
    flipBit (transmitted 0x01 [0x00, 0x00, 0x2F, 0x15, 0x55, 0xAA]) 3 2
        = [0xAA, 0x55, 0x00, 0x03, 0x01, 0x00, 0x00, 0x2F, 0x15, 0x55, 0xAA,
           0xC9, 0xD2, 0x55, 0xAA]
    ∧ decode (flipBit (transmitted 0x01 [0x00, 0x00, 0x2F, 0x15, 0x55, 0xAA]) 3 2)
        = some [{ cmd := 0x01, data := [0x00, 0x00], len := 2 }]
    ∧ decode (flipBit (transmitted 0x01 [0x00, 0x00, 0x2F, 0x15, 0x55, 0xAA]) 3 2) ≠ some [] := by
  decide

/-! ## Claims about the encoder's return value and the decoder's acceptance criterion -/

/-- C11: for every cmd and every payload of length n ≤ MAX_DATA_LENGTH, `pack_data_transmit`
makes exactly one transmit call, its return value is the number of bytes passed to that
call, that number is n + 9, and it does not exceed the working buffer's capacity
MAX_DATA_LENGTH + 9. -/
theorem pack_data_transmit_return_value (cmd : Nat) (data : List Nat)
    (hlen : data.length ≤ MAX_DATA_LENGTH) :
    ∃ frame : List Nat,
      pack_data_transmit USE_CRC16 cmd data = some { sent := [frame], ret := frame.length }
      ∧ frame.length = data.length + 9
      ∧ frame.length ≤ MAX_DATA_LENGTH + 9 := by
  have hl : data.length ≤ 256 := hlen
  refine ⟨[0xAA, 0x55] ++ BE16 (data.length + 1) ++ [cmd] ++ data
      ++ BE16 (crc16 (BE16 (data.length + 1) ++ [cmd] ++ data)) ++ [0x55, 0xAA], ?_, ?_, ?_⟩
  · rw [USE_CRC16, pack_data_transmit_eq cmd data hlen]
    simp [BE16]
  · simp [BE16]
  · simp [BE16, MAX_DATA_LENGTH]
    omega

/-- C11 (witness): the return value for cmd 0x01 and payload `[0x02, 0x03]`. -/
theorem pack_data_transmit_return_value_witness :
    [0x02, 0x03].length ≤ MAX_DATA_LENGTH
    ∧ ∃ frame : List Nat,
      pack_data_transmit USE_CRC16 0x01 [0x02, 0x03]
        = some { sent := [frame], ret := frame.length }
      ∧ frame.length = [0x02, 0x03].length + 9
      ∧ frame.length ≤ MAX_DATA_LENGTH + 9 :=
  ⟨by decide, pack_data_transmit_return_value 0x01 [0x02, 0x03] (by decide)⟩

theorem recv_join (h l : Nat) (hh : h < 256) (hl : l < 256) :
    ((h <<< 8) % 65536 ||| l) % 65536 = h * 256 + l := by
  have e : (h <<< 8) % 65536 = h <<< 8 := by
    rw [Nat.shiftLeft_eq]; norm_num; omega
  rw [e, shl8_or _ _ hl]
  omega

/-- C13: for every length value L with 2 ≤ L ≤ MAX_DATA_LENGTH + 1, every cmd, every payload
of exactly L - 1 bytes and every pair of CRC bytes (h, l), a freshly initialised decoder fed
`[0xAA, 0x55] ++ BE16 L ++ [cmd] ++ payload ++ [h, l] ++ [0x55, 0xAA]` makes exactly one
handler call (cmd, payload, L - 1) if h * 256 + l is the CRC16 of
`[0x55] ++ BE16 L ++ [cmd] ++ payload ++ [h]`, and no handler call otherwise. -/
theorem decoder_acceptance_criterion (L cmd h l : Nat) (payload : List Nat)
    (hL : 2 ≤ L) (hLmax : L ≤ MAX_DATA_LENGTH + 1) (hp : payload.length = L - 1)
    (hh : h < 256) (hl : l < 256) :
    decode ([0xAA, 0x55] ++ BE16 L ++ [cmd] ++ payload ++ [h, l] ++ [0x55, 0xAA])
      = some (if h * 256 + l = crc16 ([0x55] ++ BE16 L ++ [cmd] ++ payload ++ [h])
              then [{ cmd := cmd, data := payload, len := L - 1 }] else []) := by
  have hLm : L ≤ 257 := hLmax
  have hj := be16_join L (by omega)
  have hne : payload ≠ [] := by
    intro h0
    rw [h0] at hp
    simp at hp
    omega
  have e : [0xAA, 0x55] ++ BE16 L ++ [cmd] ++ payload ++ [h, l] ++ [0x55, 0xAA]
      = [0xAA, 0x55, (L >>> 8) &&& 0xFF, L &&& 0xFF, cmd] ++ payload ++ [h, l, 0x55, 0xAA] := by
    simp [BE16]
  have e2 : [0x55] ++ BE16 L ++ [cmd] ++ payload ++ [h]
      = [0x55, (L >>> 8) &&& 0xFF, L &&& 0xFF, cmd] ++ payload ++ [h] := by
    simp [BE16]
  rw [e, e2, decode_frame _ _ cmd h l payload hne (by rw [hp, MAX_DATA_LENGTH]; omega)
    (by rw [hj, hp]; omega) (by rw [hj, hp]; omega), recv_join h l hh hl, hp]
  by_cases hc : h * 256 + l = crc16 ([0x55, (L >>> 8) &&& 0xFF, L &&& 0xFF, cmd] ++ payload ++ [h])
  · rw [if_pos hc, if_pos hc.symm]
  · rw [if_neg hc, if_neg (fun hx => hc hx.symm)]

set_option maxRecDepth 100000 in
/-- C13 (witness): length 3, cmd 0x01, payload `[0x02, 0x03]` and CRC bytes 6C 81, which are
the CRC16 of 55 00 03 01 02 03 6C: the decoder makes the one handler call. -/
theorem decoder_acceptance_criterion_witness :
    0x6C * 256 + 0x81 = crc16 ([0x55] ++ BE16 3 ++ [0x01] ++ [0x02, 0x03] ++ [0x6C])
    ∧ decode ([0xAA, 0x55] ++ BE16 3 ++ [0x01] ++ [0x02, 0x03] ++ [0x6C, 0x81] ++ [0x55, 0xAA])
      = some (if 0x6C * 256 + 0x81 = crc16 ([0x55] ++ BE16 3 ++ [0x01] ++ [0x02, 0x03] ++ [0x6C])
              then [{ cmd := 0x01, data := [0x02, 0x03], len := 3 - 1 }] else []) :=
  ⟨by decide,
    decoder_acceptance_criterion 3 0x01 0x6C 0x81 [0x02, 0x03] (by decide) (by decide)
      (by decide) (by decide) (by decide)⟩

set_option maxRecDepth 100000 in
/-- C14 (failing input): the frame AA 55 00 01 10 20 70 23 55 AA has length field 1; the
decoder accepts it and calls the handler with cmd 0x10, payload `[0x20]` and length 1,
not with the empty payload that length field 1 stands for. -/
theorem length_field_one_delivers_one_byte :
    decode [0xAA, 0x55, 0x00, 0x01, 0x10, 0x20, 0x70, 0x23, 0x55, 0xAA]
      = some [{ cmd := 0x10, data := [0x20], len := 1 }] := by
  decide

set_option maxRecDepth 100000 in
/-- C15 (failing input): built with CRC disabled, the encoder sends AA 55 00 03 01 02 03 55 AA
for cmd 0x01 and payload `[0x02, 0x03]`; a freshly initialised decoder built with CRC
disabled takes the two trailer bytes as CRC bytes, makes no handler call and is left
waiting for a trailer in STATE_WAIT_END1. -/
theorem crc_disabled_frame_lost :
    pack_data_transmit false 0x01 [0x02, 0x03]
      = some { sent := [[0xAA, 0x55, 0x00, 0x03, 0x01, 0x02, 0x03, 0x55, 0xAA]], ret := 9 }
    ∧ (feed false serial_protocol_init
        [0xAA, 0x55, 0x00, 0x03, 0x01, 0x02, 0x03, 0x55, 0xAA]).map
          (fun r => (r.2, r.1.state)) = some ([], STATE_WAIT_END1) := by
  decide

/-! ## Claims about every byte stream -/

theorem parse_byte_call_source (u : Bool) (ctx ctx1 : ParseContext) (b : Nat)
    (calls : List HandlerCall) (h : parse_byte u ctx b = some (ctx1, calls))
    (hne : calls ≠ []) :
    ctx.state = STATE_WAIT_END2 ∧ b = 0xAA ∧ ctx1.state = STATE_WAIT_HEADER1
    ∧ calls = [{ cmd := ctx.cmd, data := ctx.data.take ctx.data_index,
                 len := ctx.data_index }] := by
  obtain ⟨s, i, n, m, d, k, r⟩ := ctx
  cases s <;> cases u <;> simp only [parse_byte, parse_switch] at h <;>
    split_ifs at h <;> simp at h <;> (try obtain ⟨rfl, rfl⟩ := h) <;> simp_all [end_lo]

theorem parse_byte_into_end2 (u : Bool) (ctx ctx1 : ParseContext) (b : Nat)
    (calls : List HandlerCall) (h : parse_byte u ctx b = some (ctx1, calls))
    (hs : ctx1.state = STATE_WAIT_END2) :
    ctx.state = STATE_WAIT_END1 ∧ b = 0x55 := by
  obtain ⟨s, i, n, m, d, k, r⟩ := ctx
  cases s <;> cases u <;> simp only [parse_byte, parse_switch] at h <;>
    split_ifs at h <;> simp at h <;> (try obtain ⟨rfl, rfl⟩ := h) <;> simp_all [end_hi]

theorem parse_byte_len_inv (u : Bool) (ctx ctx1 : ParseContext) (b : Nat)
    (calls : List HandlerCall) (h : parse_byte u ctx b = some (ctx1, calls))
    (hinv : 6 ≤ ctx.state.ord → 1 ≤ ctx.data_index) :
    6 ≤ ctx1.state.ord → 1 ≤ ctx1.data_index := by
  obtain ⟨s, i, n, m, d, k, r⟩ := ctx
  cases s <;> cases u <;> simp only [parse_byte, parse_switch] at h <;>
    split_ifs at h <;> simp at h <;> (try obtain ⟨rfl, rfl⟩ := h) <;>
    simp_all [ParseState.ord, MAX_DATA_LENGTH] <;> omega

theorem feed_snoc (u : Bool) (ctx ctx2 : ParseContext) (pre : List Nat) (x : Nat)
    (calls : List HandlerCall) (h : feed u ctx (pre ++ [x]) = some (ctx2, calls)) :
    ∃ ctx1 cs1 cs2, feed u ctx pre = some (ctx1, cs1)
      ∧ parse_byte u ctx1 x = some (ctx2, cs2) ∧ calls = cs1 ++ cs2 := by
  cases hf : feed u ctx pre with
  | none => rw [feed_append_none u ctx pre [x] hf] at h; cases h
  | some r1 =>
    obtain ⟨ctx1, cs1⟩ := r1
    rw [feed_append_some u ctx ctx1 pre [x] cs1 hf] at h
    cases hp : parse_byte u ctx1 x with
    | none => rw [feed, hp] at h; cases h
    | some r2 =>
      obtain ⟨c2, cs2⟩ := r2
      rw [feed_cons_some u ctx1 c2 x [] cs2 hp, feed_nil] at h
      simp only [Option.map_some', Option.some.injEq, Prod.mk.injEq, List.append_nil] at h
      obtain ⟨rfl, rfl⟩ := h
      exact ⟨ctx1, cs1, cs2, rfl, hp, rfl⟩

theorem feed_len_inv (u : Bool) (bytes : List Nat) (ctx ctx1 : ParseContext)
    (calls : List HandlerCall) (h : feed u ctx bytes = some (ctx1, calls))
    (hinv : 6 ≤ ctx.state.ord → 1 ≤ ctx.data_index) :
    (6 ≤ ctx1.state.ord → 1 ≤ ctx1.data_index) ∧ ∀ c ∈ calls, 1 ≤ c.len := by
  induction bytes generalizing ctx calls with
  | nil =>
    rw [feed_nil] at h
    simp only [Option.some.injEq, Prod.mk.injEq] at h
    obtain ⟨rfl, rfl⟩ := h
    exact ⟨hinv, by simp⟩
  | cons b rest ih =>
    cases hp : parse_byte u ctx b with
    | none => rw [feed, hp] at h; cases h
    | some r =>
      obtain ⟨c2, cs2⟩ := r
      rw [feed_cons_some u ctx c2 b rest cs2 hp] at h
      cases hf : feed u c2 rest with
      | none => rw [hf] at h; cases h
      | some r3 =>
        obtain ⟨c3, cs3⟩ := r3
        rw [hf] at h
        simp only [Option.map_some', Option.some.injEq, Prod.mk.injEq] at h
        obtain ⟨rfl, rfl⟩ := h
        have hinv2 := parse_byte_len_inv u ctx c2 b cs2 hp hinv
        obtain ⟨h1, h2⟩ := ih c2 cs3 hf hinv2
        refine ⟨h1, ?_⟩
        intro c hc
        rw [List.mem_append] at hc
        cases hc with
        | inl hc =>
          by_cases hne : cs2 = []
          · rw [hne] at hc; cases hc
          · obtain ⟨hs, _, _, hcs⟩ := parse_byte_call_source u ctx c2 b cs2 hp hne
            rw [hcs] at hc
            simp only [List.mem_singleton] at hc
            rw [hc]
            exact hinv (by rw [hs]; decide)
        | inr hc => exact h2 c hc

theorem agreeRes_calls_state (r1 r2 : Option (ParseContext × List HandlerCall))
    (h : agreeRes r1 r2) :
    r1.map (fun r => (r.2, r.1.state)) = r2.map (fun r => (r.2, r.1.state)) := by
  cases r1 with
  | none =>
    cases r2 with
    | none => rfl
    | some q2 => exact h.elim
  | some q1 =>
    cases r2 with
    | none => exact h.elim
    | some q2 => simp only [Option.map_some']; rw [h.1, h.2.1]

/-- C16: for every two decoder contexts that are both in STATE_WAIT_HEADER1, whatever their
data_index, pkg_length, cmd, payload buffer contents, calc_crc and recv_crc, and for every
byte sequence, feeding the sequence to each gives the same outcome: the same sequence of
handler calls (cmd, length, payload bytes) and the same final state (and a faulting store in
one run is a faulting store in the other). -/
theorem no_stale_state (c1 c2 : ParseContext) (bytes : List Nat)
    (h1 : c1.state = STATE_WAIT_HEADER1) (h2 : c2.state = STATE_WAIT_HEADER1)
    (hd1 : c1.data.length = MAX_DATA_LENGTH) (hd2 : c2.data.length = MAX_DATA_LENGTH) :
    (feed USE_CRC16 c1 bytes).map (fun r => (r.2, r.1.state))
      = (feed USE_CRC16 c2 bytes).map (fun r => (r.2, r.1.state)) := by
  apply agreeRes_calls_state
  apply feed_agree
  refine ⟨by rw [h1, h2], hd1, hd2, ?_, ?_, ?_, ?_⟩ <;> simp [h1, ParseState.ord]

set_option maxRecDepth 100000 in
/-- C16 (witness): a freshly initialised context and a context in STATE_WAIT_HEADER1 with
left-over values in every other field, both fed the frame AA 55 00 02 1F EA A5 89 55 AA,
make the same handler call and end in the same state. -/
theorem no_stale_state_witness :
    (feed USE_CRC16 serial_protocol_init
        [0xAA, 0x55, 0x00, 0x02, 0x1F, 0xEA, 0xA5, 0x89, 0x55, 0xAA]).map
          (fun r => (r.2, r.1.state))
      = (feed USE_CRC16
          { state := STATE_WAIT_HEADER1, data_index := 7, pkg_length := 8, cmd := 0x33,
            data := List.replicate 256 0xFF, calc_crc := 0x1234, recv_crc := 0x5678 }
          [0xAA, 0x55, 0x00, 0x02, 0x1F, 0xEA, 0xA5, 0x89, 0x55, 0xAA]).map
            (fun r => (r.2, r.1.state))
    ∧ (feed USE_CRC16 serial_protocol_init
        [0xAA, 0x55, 0x00, 0x02, 0x1F, 0xEA, 0xA5, 0x89, 0x55, 0xAA]).map
          (fun r => (r.2, r.1.state))
      = some ([{ cmd := 0x1F, data := [0xEA], len := 1 }], STATE_WAIT_HEADER1) :=
  ⟨no_stale_state serial_protocol_init
      { state := STATE_WAIT_HEADER1, data_index := 7, pkg_length := 8, cmd := 0x33,
        data := List.replicate 256 0xFF, calc_crc := 0x1234, recv_crc := 0x5678 }
      [0xAA, 0x55, 0x00, 0x02, 0x1F, 0xEA, 0xA5, 0x89, 0x55, 0xAA] rfl rfl
      (by decide) (by decide),
    by decide⟩

theorem stateAfter_eq_some (pre : List Nat) (s : ParseState) (h : stateAfter pre = some s) :
    ∃ ctx calls, feed true serial_protocol_init pre = some (ctx, calls) ∧ ctx.state = s := by
  unfold stateAfter at h
  rw [USE_CRC16] at h
  cases hf : feed true serial_protocol_init pre with
  | none => rw [hf] at h; cases h
  | some r =>
    obtain ⟨ctx, calls⟩ := r
    rw [hf] at h
    simp only [Option.map_some', Option.some.injEq] at h
    exact ⟨ctx, calls, rfl, h⟩

/-- C17 (amended): for every byte sequence after which a freshly initialised decoder is in
STATE_WAIT_HEADER1, feeding the two header bytes 0xAA 0x55 next puts the decoder in
STATE_WAIT_LENGTH; for every byte sequence after which it is in STATE_WAIT_HEADER2 (the
sequence ended on a first header byte) the same two bytes leave it in STATE_WAIT_HEADER1. -/
theorem header_detection (pre1 pre2 : List Nat)
    (h1 : stateAfter pre1 = some STATE_WAIT_HEADER1)
    (h2 : stateAfter pre2 = some STATE_WAIT_HEADER2) :
    stateAfter (pre1 ++ [0xAA, 0x55]) = some STATE_WAIT_LENGTH
    ∧ stateAfter (pre2 ++ [0xAA, 0x55]) = some STATE_WAIT_HEADER1 := by
  obtain ⟨c1, cs1, hf1, hs1⟩ := stateAfter_eq_some pre1 _ h1
  obtain ⟨c2, cs2, hf2, hs2⟩ := stateAfter_eq_some pre2 _ h2
  constructor
  · unfold stateAfter
    rw [USE_CRC16, feed_append_some _ _ _ _ _ _ hf1,
      feed_cons_some _ _ _ _ _ _ (parse_byte_wait_header1 c1 _ hs1), if_pos rfl,
      feed_cons_some _ _ _ _ _ _ (parse_byte_wait_header2 _ _ rfl), if_pos rfl, feed_nil]
    rfl
  · unfold stateAfter
    rw [USE_CRC16, feed_append_some _ _ _ _ _ _ hf2,
      feed_cons_some _ _ _ _ _ _ (parse_byte_wait_header2 c2 _ hs2), if_neg (by decide),
      feed_cons_some _ _ _ _ _ _ (parse_byte_wait_header1 _ _ rfl), if_neg (by decide), feed_nil]
    rfl

set_option maxRecDepth 100000 in
/-- C17 (witness): after the byte 0x00 the decoder is in STATE_WAIT_HEADER1 and 0xAA 0x55 take
it to STATE_WAIT_LENGTH; after the byte 0xAA it is in STATE_WAIT_HEADER2 and 0xAA 0x55 leave
it in STATE_WAIT_HEADER1. -/
theorem header_detection_witness :
    stateAfter [0x00] = some STATE_WAIT_HEADER1
    ∧ stateAfter [0xAA] = some STATE_WAIT_HEADER2
    ∧ stateAfter ([0x00] ++ [0xAA, 0x55]) = some STATE_WAIT_LENGTH
    ∧ stateAfter ([0xAA] ++ [0xAA, 0x55]) = some STATE_WAIT_HEADER1 :=
  ⟨by decide, by decide, header_detection [0x00] [0xAA] (by decide) (by decide)⟩

set_option maxRecDepth 100000 in
/-- C17 (counterexample): the one-byte sequence 0xAA keeps a freshly initialised decoder in
the header-scanning states (it is in STATE_WAIT_HEADER2), and after the bytes
0xAA 0xAA 0x55 the decoder is in STATE_WAIT_HEADER1, not in STATE_WAIT_LENGTH. -/
theorem repeated_header_byte_missed :
    stateAfter [0xAA] = some STATE_WAIT_HEADER2
    ∧ stateAfter [0xAA, 0xAA, 0x55] = some STATE_WAIT_HEADER1
    ∧ stateAfter [0xAA, 0xAA, 0x55] ≠ some STATE_WAIT_LENGTH := by
  decide

/-- C18: for every byte sequence fed to a freshly initialised decoder, every handler call it
produces has length at least 1; and for a length field of 0 or 1 the byte after the cmd byte
is stored as the one payload byte (the decoder is then in STATE_WAIT_CRC1 with data_index 1
and that byte at the start of the buffer). -/
theorem handler_length_at_least_one (bytes : List Nat) (calls : List HandlerCall)
    (lo cmd d : Nat) (h : decode bytes = some calls) (hlo : lo ≤ 1) :
    (∀ c ∈ calls, 1 ≤ c.len)
    ∧ (feed USE_CRC16 serial_protocol_init [0xAA, 0x55, 0x00, lo, cmd, d]).map
        (fun r => (r.1.state, r.1.data_index, r.1.data.take r.1.data_index))
      = some (STATE_WAIT_CRC1, 1, [d]) := by
  constructor
  · unfold decode at h
    cases hf : feed USE_CRC16 serial_protocol_init bytes with
    | none => rw [hf] at h; cases h
    | some r =>
      obtain ⟨ctx, cs⟩ := r
      rw [hf] at h
      simp only [Option.map_some', Option.some.injEq] at h
      subst h
      exact (feed_len_inv USE_CRC16 bytes serial_protocol_init ctx cs hf
        (fun hx => absurd hx (by decide))).2
  · have hL : ((0x00 <<< 8) % 65536 ||| lo) % 65536 = lo := by
      have : lo = 0 ∨ lo = 1 := by omega
      rcases this with rfl | rfl <;> decide
    have hhead := feed_head serial_protocol_init 0x00 lo cmd rfl
      (by rw [hL, MAX_DATA_LENGTH]; omega)
    have e : [0xAA, 0x55, 0x00, lo, cmd, d] = [0xAA, 0x55, 0x00, lo, cmd] ++ [d] := rfl
    rw [USE_CRC16, e, feed_append_some _ _ _ _ _ _ hhead,
      feed_cons_some _ _ _ _ _ _ (parse_byte_read_data _ _ rfl (by simp [MAX_DATA_LENGTH])),
      if_pos (by simp only [hL]; omega), feed_nil]
    have ht := take_succ_set serial_protocol_init.data 0 d
      (by rw [agree_init.2.1]; decide)
    simp only [Nat.zero_add, List.take_zero, List.nil_append] at ht
    simp only [Option.map_some', List.nil_append, Nat.zero_add, ht]

set_option maxRecDepth 100000 in
/-- C18 (witness): the stream AA 55 00 01 10 20 70 23 55 AA gives one handler call, of
length 1; with length field 1, cmd 0x10 and next byte 0x20 the decoder stores 0x20 as
payload. -/
theorem handler_length_at_least_one_witness :
    decode [0xAA, 0x55, 0x00, 0x01, 0x10, 0x20, 0x70, 0x23, 0x55, 0xAA]
        = some [{ cmd := 0x10, data := [0x20], len := 1 }]
    ∧ (∀ c ∈ [({ cmd := 0x10, data := [0x20], len := 1 } : HandlerCall)], 1 ≤ c.len)
    ∧ (feed USE_CRC16 serial_protocol_init [0xAA, 0x55, 0x00, 0x01, 0x10, 0x20]).map
        (fun r => (r.1.state, r.1.data_index, r.1.data.take r.1.data_index))
      = some (STATE_WAIT_CRC1, 1, [0x20]) :=
  ⟨by decide,
    handler_length_at_least_one [0xAA, 0x55, 0x00, 0x01, 0x10, 0x20, 0x70, 0x23, 0x55, 0xAA]
      [{ cmd := 0x10, data := [0x20], len := 1 }] 0x01 0x10 0x20 (by decide) (by decide)⟩

/-- C12: in STATE_WAIT_END1 every byte other than 0x55, and in STATE_WAIT_END2 every byte
other than 0xAA, is consumed with no handler call and leaves the decoder in
STATE_WAIT_HEADER1; and in any byte stream fed to a freshly initialised decoder, a byte on
which the handler is called equals 0xAA, the byte just before it equals 0x55, and the
decoder is in STATE_WAIT_HEADER1 after it. -/
theorem trailer_mismatch_silent_drop (ctx : ParseContext) (b : Nat) (pre : List Nat) (x : Nat)
    (calls : List HandlerCall) :
    (ctx.state = STATE_WAIT_END1 → b ≠ 0x55 →
        (parse_byte USE_CRC16 ctx b).map (fun r => (r.2, r.1.state))
          = some ([], STATE_WAIT_HEADER1))
    ∧ (ctx.state = STATE_WAIT_END2 → b ≠ 0xAA →
        (parse_byte USE_CRC16 ctx b).map (fun r => (r.2, r.1.state))
          = some ([], STATE_WAIT_HEADER1))
    ∧ (callsOn pre x = some calls → calls ≠ [] →
        x = 0xAA ∧ pre.getLast? = some 0x55
        ∧ stateAfter (pre ++ [x]) = some STATE_WAIT_HEADER1) := by
  refine ⟨?_, ?_, ?_⟩
  · intro hs hb
    rw [USE_CRC16, parse_byte_wait_end1 ctx b hs, if_neg hb]
    rfl
  · intro hs hb
    rw [USE_CRC16, parse_byte_wait_end2 ctx b hs, if_neg hb]
    rfl
  · intro hc hne
    unfold callsOn at hc
    cases hf : feed USE_CRC16 serial_protocol_init pre with
    | none => rw [hf] at hc; cases hc
    | some r =>
      obtain ⟨c0, cs0⟩ := r
      rw [hf] at hc
      simp only at hc
      cases hp : parse_byte USE_CRC16 c0 x with
      | none => rw [hp] at hc; cases hc
      | some r1 =>
        obtain ⟨c1, cs1⟩ := r1
        rw [hp] at hc
        simp only [Option.map_some', Option.some.injEq] at hc
        subst hc
        obtain ⟨hs0, hx, hs1, _⟩ := parse_byte_call_source USE_CRC16 c0 c1 x cs1 hp hne
        refine ⟨hx, ?_, ?_⟩
        · rcases List.eq_nil_or_concat pre with hnil | ⟨pre0, y, hcat⟩
          · subst hnil
            rw [feed_nil] at hf
            simp only [Option.some.injEq, Prod.mk.injEq] at hf
            rw [← hf.1] at hs0
            cases hs0
          · rw [List.concat_eq_append] at hcat
            subst hcat
            obtain ⟨cm, csa, csb, _, hpy, _⟩ := feed_snoc USE_CRC16 _ _ pre0 y cs0 hf
            obtain ⟨_, hy⟩ := parse_byte_into_end2 USE_CRC16 cm c0 y csb hpy hs0
            rw [List.getLast?_concat, hy]
        · unfold stateAfter
          rw [feed_append_some _ _ _ _ _ _ hf, feed_cons_some _ _ _ _ _ _ hp, feed_nil]
          simp only [Option.map_some']
          rw [hs1]

set_option maxRecDepth 100000 in
/-- C12 (witness): a context in STATE_WAIT_END1 fed 0x00, a context in STATE_WAIT_END2 fed
0x00, and the stream AA 55 00 02 1F EA A5 89 55 AA, whose handler call occurs on its last
byte 0xAA, right after 0x55. -/
theorem trailer_mismatch_silent_drop_witness :
    (parse_byte USE_CRC16 { serial_protocol_init with state := STATE_WAIT_END1 } 0x00).map
        (fun r => (r.2, r.1.state)) = some ([], STATE_WAIT_HEADER1)
    ∧ (parse_byte USE_CRC16 { serial_protocol_init with state := STATE_WAIT_END2 } 0x00).map
        (fun r => (r.2, r.1.state)) = some ([], STATE_WAIT_HEADER1)
    ∧ callsOn [0xAA, 0x55, 0x00, 0x02, 0x1F, 0xEA, 0xA5, 0x89, 0x55] 0xAA
        = some [{ cmd := 0x1F, data := [0xEA], len := 1 }]
    ∧ (0xAA = 0xAA ∧ [0xAA, 0x55, 0x00, 0x02, 0x1F, 0xEA, 0xA5, 0x89, 0x55].getLast? = some 0x55
        ∧ stateAfter ([0xAA, 0x55, 0x00, 0x02, 0x1F, 0xEA, 0xA5, 0x89, 0x55] ++ [0xAA])
            = some STATE_WAIT_HEADER1) :=
  ⟨(trailer_mismatch_silent_drop { serial_protocol_init with state := STATE_WAIT_END1 } 0x00
      [] 0 []).1 rfl (by decide),
   (trailer_mismatch_silent_drop { serial_protocol_init with state := STATE_WAIT_END2 } 0x00
      [] 0 []).2.1 rfl (by decide),
   by decide,
   (trailer_mismatch_silent_drop serial_protocol_init 0
      [0xAA, 0x55, 0x00, 0x02, 0x1F, 0xEA, 0xA5, 0x89, 0x55] 0xAA
      [{ cmd := 0x1F, data := [0xEA], len := 1 }]).2.2 (by decide) (by decide)⟩

end ProtoFlow
